import Mathlib

/-!
# Verification of the taipy data-node entity–model conversion layer

Shallow embedding of `src/taipy/core/data/_data_converter.py`
(`_DataNodeConverter`) and of the repository façade described by the
specification, together with theorems settling the frozen claims.

Conventions of the embedding:
* Python `datetime` values are opaque instants modelled as `Nat`;
  `datetime.isoformat` / `datetime.fromisoformat` are modelled as an
  injective string encoding with a partial parser (the stdlib guarantees
  `fromisoformat (isoformat t) = t`, which the model realises).
* Python `timedelta` values are modelled as their total number of
  microseconds (an `Int`); the `.days` and `.seconds` attributes follow
  Python's floor-division normalisation.
* Python dicts are modelled as `Finmap` over `String` keys: key-insertion
  order is unobservable through `==`, `[]`, `del`, `get` and `pop`, which is
  all the converter uses.
* `datetime.now()` is passed in explicitly as a `now : Nat` parameter.
* Exceptions are modelled by `Except PyErr`; deprecation warnings
  (`_warn_deprecated`) are accumulated in a returned list.
-/

/-- A Python callable or class, as far as the converter observes it:
its `__module__`, `__name__` and `__qualname__` attributes. -/
structure PyObj where
  mod : String
  name : String
  qual : String
deriving DecidableEq, Repr

/-- A value that can appear inside an `exposed_type` mapping or sequence:
a string token, a class/callable, or Python `None` (what `pydoc.locate`
returns on failure). -/
inductive ExpoCell where
  | cstr (s : String)
  | cobj (o : PyObj)
  | cnone
deriving DecidableEq, Repr

/-- A Python value stored in a property bag or an edit record.
`pother` stands for an arbitrary further object the converter never
inspects (such objects are truthy by default in Python). -/
inductive PVal where
  | pnone
  | pbool (b : Bool)
  | pstr (s : String)
  | pobj (o : PyObj)
  | ptime (t : Nat)
  | pdict (entries : List (String × ExpoCell))
  | plist (elems : List ExpoCell)
  | pother (tag : Nat)
deriving DecidableEq, Repr

/-- Python truthiness of the modelled values: `None`, `False`, the empty
string and empty collections are falsy; objects, datetimes and opaque
objects are truthy. -/
def PVal.truthy : PVal → Bool
  | .pnone => false
  | .pbool b => b
  | .pstr s => !(s == "")
  | .pobj _ => true
  | .ptime _ => true
  | .pdict l => !l.isEmpty
  | .plist l => !l.isEmpty
  | .pother _ => true

/-- A Python `dict` with string keys, compared extensionally (Python dict
equality ignores insertion order). -/
abbrev Dict := Finmap (fun _ : String => PVal)

/-- `d.get(k, None)` / `d.get(k)`. -/
def Finmap.getd (d : Dict) (k : String) : PVal := (d.lookup k).getD .pnone

/-- `k in d`. -/
def Finmap.hasKey (d : Dict) (k : String) : Bool := (d.lookup k).isSome

/-- The Python exceptions the converter can raise, as the embedding
distinguishes them. -/
inductive PyErr where
  /-- `KeyError(k)` — raised by `d[k]` and `del d[k]` on an absent key,
  and by `DataNode._class_map()[storage_type]` on an unknown variant. -/
  | keyError (k : String)
  /-- `AttributeError` — e.g. `v.__module__` on a value without it. -/
  | attributeError
  /-- `TypeError` — e.g. `datetime.fromisoformat` on a non-string. -/
  | typeError
  /-- `ValueError(s)` — `datetime.fromisoformat` on a malformed string. -/
  | valueError (s : String)
  /-- `ImportError`/`AttributeError` escaping `_load_fct` when a symbolic
  reference cannot be resolved (the spec's ResolutionError). -/
  | importError (mod fct : String)
  /-- `ModelNotFound` — raised by the repository on an absent id/match. -/
  | modelNotFound
deriving DecidableEq, Repr

/-- A deprecation diagnostic emitted by `_warn_deprecated(deprecated, suggest)`. -/
structure Warn where
  deprecated : String
  suggest : String
deriving DecidableEq, Repr

/-- The diagnostic `_warn_deprecated("job_ids", suggest="edits")`. -/
def deprJobIdsWarn : Warn := ⟨"job_ids", "edits"⟩

/-! ### Modelled `datetime.isoformat` / `datetime.fromisoformat` -/

/-- One decimal digit as a character. -/
def digitChar : Nat → Char
  | 0 => '0' | 1 => '1' | 2 => '2' | 3 => '3' | 4 => '4'
  | 5 => '5' | 6 => '6' | 7 => '7' | 8 => '8' | _ => '9'

/-- Partial inverse of `digitChar`. -/
def charDigit? (c : Char) : Option Nat :=
  if c = '0' then some 0 else if c = '1' then some 1 else
  if c = '2' then some 2 else if c = '3' then some 3 else
  if c = '4' then some 4 else if c = '5' then some 5 else
  if c = '6' then some 6 else if c = '7' then some 7 else
  if c = '8' then some 8 else if c = '9' then some 9 else none

/-- Parse a digit string (little-endian digits). -/
def parseDigits : List Char → Option (List Nat)
  | [] => some []
  | c :: cs => do
    let d ← charDigit? c
    let ds ← parseDigits cs
    some (d :: ds)

/-- Model of `datetime.isoformat`: an injective, never-empty string
encoding of the instant (a `'T'` marker followed by the base-10 digits of
the instant, little-endian). -/
def isoformat (t : Nat) : String := ⟨'T' :: (Nat.digits 10 t).map digitChar⟩

/-- Model of `datetime.fromisoformat`: partial parser inverting
`isoformat`; `none` models the `ValueError` on malformed input. -/
def fromisoformat (s : String) : Option Nat :=
  match s.data with
  | 'T' :: cs => (parseDigits cs).map (Nat.ofDigits 10)
  | _ => none

/-! ### Modelled `timedelta` -/

/-- Microseconds in a day. -/
def usPerDay : Int := 86400000000

/-- Microseconds in a second. -/
def usPerSec : Int := 1000000

/-- `timedelta.days`: Python floor-divides the total duration by one day.
The divisor is positive, so Python's floor division agrees with `Int.ediv`
(which is what `/` on `Int` denotes here). -/
def tdDays (t : Int) : Int := t / usPerDay

/-- `timedelta.seconds`: the whole seconds of the sub-day remainder,
always in `[0, 86400)`. -/
def tdSeconds (t : Int) : Int := (t % usPerDay) / usPerSec

/-- `timedelta(days=d, seconds=s)` as total microseconds. -/
def mkTimedelta (d s : Int) : Int := (d * 86400 + s) * 1000000

/-- A `timedelta` is falsy exactly when it is zero. -/
def tdTruthy (t : Int) : Bool := !(t == 0)

/-! ### Data model: entities and persisted models -/

/-- The in-memory `DataNode` entity, with the attributes the converter
reads and writes. `storage_type` is the class discriminator returned by
`data_node.storage_type()`; `validity_period` is an optional `timedelta`
(total microseconds); `parent_ids` is a Python `set`. -/
structure DataNode where
  id : String
  config_id : String
  scope : Nat
  storage_type : String
  name : Option String
  owner_id : Option String
  parent_ids : Finset String
  last_edit_date : Option Nat
  edits : List Dict
  version : String
  validity_period : Option Int
  edit_in_progress : Bool
  properties : Dict
deriving DecidableEq

/-- The persisted `_DataNodeModel` record, field for field. -/
structure DataNodeModel where
  id : String
  config_id : String
  scope : Nat
  storage_type : String
  name : Option String
  owner_id : Option String
  parent_ids : List String
  last_edit_date : Option String
  edits : List Dict
  version : String
  validity_days : Option Int
  validity_seconds : Option Int
  edit_in_progress : Bool
  data_node_properties : Dict
deriving DecidableEq

/-- The Reference Registry: `loadFct` models `_load_fct(module, name)`
(raising on failure), `locate` models `pydoc.locate(path)` (returning
`None` on failure). Both are external to the converter; theorems assume
their inversion properties only at the objects they are applied to. -/
structure Registry where
  loadFct : String → String → Option PyObj
  locate : String → Option PyObj

/-- The keyword arguments passed to the variant constructor selected from
`DataNode._class_map()`. -/
structure CtorArgs where
  config_id : String
  scope : Nat
  id : String
  name : Option String
  owner_id : Option String
  parent_ids : Finset String
  last_edit_date : Option Nat
  edits : List Dict
  version : String
  validity_period : Option Int
  edit_in_progress : Bool
  properties : Dict

/-- Modelled from the spec: the storage types registered in
`DataNode._class_map()` (the variant constructor registry, §4.1), which is
not part of the sources under verification. It covers the four variants the
claims name plus the remaining built-in kinds. -/
def knownStorageTypes : List String :=
  ["csv", "excel", "generic", "in_memory", "json", "mongo_collection",
   "parquet", "pickle", "sql", "sql_table"]

/-- Modelled from the spec: each variant constructor populates the concrete
entity with all common and variant-specific fields (§4.1); the class map is
keyed by `storage_type` and a missing key raises `KeyError`. -/
def classMap (storage_type : String) : Option (CtorArgs → DataNode) :=
  if storage_type ∈ knownStorageTypes then
    some fun a =>
      { id := a.id, config_id := a.config_id, scope := a.scope,
        storage_type := storage_type, name := a.name,
        owner_id := a.owner_id, parent_ids := a.parent_ids,
        last_edit_date := a.last_edit_date, edits := a.edits,
        version := a.version, validity_period := a.validity_period,
        edit_in_progress := a.edit_in_progress, properties := a.properties }
  else none

/-- Modelled from the spec: `_migrate_entity`, the post-construction
migration hook, is "an external, pluggable step" (§4.1) that normalizes
legacy quirks; on current-schema entities it is the identity. -/
def migrateEntity (dn : DataNode) : DataNode := dn

/-! ### Converter constants (`_DataNodeConverter`) -/

def READ_FCT_NAME_KEY : String := "read_fct_name"
def READ_FCT_MODULE_KEY : String := "read_fct_module"
def WRITE_FCT_NAME_KEY : String := "write_fct_name"
def WRITE_FCT_MODULE_KEY : String := "write_fct_module"
def JSON_ENCODER_NAME_KEY : String := "encoder_name"
def JSON_ENCODER_MODULE_KEY : String := "encoder_module"
def JSON_DECODER_NAME_KEY : String := "decoder_name"
def JSON_DECODER_MODULE_KEY : String := "decoder_module"
def EXPOSED_TYPE_KEY : String := "exposed_type"
def WRITE_QUERY_BUILDER_NAME_KEY : String := "write_query_builder_name"
def WRITE_QUERY_BUILDER_MODULE_KEY : String := "write_query_builder_module"

/-- `_DataNodeConverter._VALID_STRING_EXPOSED_TYPES`. -/
def VALID_STRING_EXPOSED_TYPES : List String := ["numpy", "pandas", "modin"]

/-- Modelled from the spec: the property keys used by the entity classes
(`GenericDataNode._OPTIONAL_READ/WRITE_FUNCTION_PROPERTY`,
`JSONDataNode._ENCODER_KEY`/`_DECODER_KEY`,
`SQLDataNode._WRITE_QUERY_BUILDER_KEY`,
`MongoCollectionDataNode._CUSTOM_DOCUMENT_PROPERTY`), which are declared in
entity modules outside the sources under verification. -/
def READ_FCT_KEY : String := "read_fct"
def WRITE_FCT_KEY : String := "write_fct"
def ENCODER_KEY : String := "encoder"
def DECODER_KEY : String := "decoder"
def WRITE_QUERY_BUILDER_KEY : String := "write_query_builder"
def CUSTOM_DOCUMENT_KEY : String := "custom_document"

/-! ### Python-operation helpers -/

/-- `f.__name__ if f else None`: truthy values must be objects carrying
`__name__`, anything else truthy raises `AttributeError`. -/
def attrName (v : PVal) : Except PyErr (Option String) :=
  if v.truthy then
    match v with
    | .pobj o => .ok (some o.name)
    | _ => .error .attributeError
  else .ok none

/-- `f.__module__ if f else None`. -/
def attrModule (v : PVal) : Except PyErr (Option String) :=
  if v.truthy then
    match v with
    | .pobj o => .ok (some o.mod)
    | _ => .error .attributeError
  else .ok none

/-- `f"{v.__module__}.{v.__qualname__}"` on an object. -/
def fqn (o : PyObj) : String := o.mod ++ "." ++ o.qual

/-- An `Option String` stored back into a dict becomes the string or `None`. -/
def optStr : Option String → PVal
  | some s => .pstr s
  | none => .pnone

/-- `d[k]`: raises `KeyError` on an absent key. -/
def getItem (d : Dict) (k : String) : Except PyErr PVal :=
  match d.lookup k with
  | some v => .ok v
  | none => .error (.keyError k)

/-- `del d[k]`: raises `KeyError` on an absent key. -/
def delItem (d : Dict) (k : String) : Except PyErr Dict :=
  match d.lookup k with
  | some _ => .ok (d.erase k)
  | none => .error (.keyError k)

/-- `_load_fct(module_name, fct_name)`: resolves via the Registry; the
arguments must be strings (`importlib.import_module` rejects others), and
an unresolvable reference raises. -/
def load_fct (reg : Registry) (m n : PVal) : Except PyErr PVal :=
  match m, n with
  | .pstr ms, .pstr ns =>
    match reg.loadFct ms ns with
    | some o => .ok (.pobj o)
    | none => .error (.importError ms ns)
  | _, _ => .error .typeError

/-! ### `_DataNodeConverter` serialization (entity → model) -/

/-- `__serialize_generic_dn_properties` (lines 54–68): reads the optional
read/write callables with `.get(…, None)`, stores their names and modules,
then `del`s both original keys — `del` raises `KeyError` if a key is
absent. -/
def serialize_generic_dn_properties (p : Dict) : Except PyErr Dict := do
  let read_fct := p.getd READ_FCT_KEY
  let p := p.insert READ_FCT_NAME_KEY (optStr (← attrName read_fct))
  let p := p.insert READ_FCT_MODULE_KEY (optStr (← attrModule read_fct))
  let write_fct := p.getd WRITE_FCT_KEY
  let p := p.insert WRITE_FCT_NAME_KEY (optStr (← attrName write_fct))
  let p := p.insert WRITE_FCT_MODULE_KEY (optStr (← attrModule write_fct))
  let p ← delItem p READ_FCT_KEY
  let p ← delItem p WRITE_FCT_KEY
  return p

/-- `__serialize_json_dn_properties` (lines 70–82): like the generic case
but removes the original keys with `pop(…, None)`, which never raises. -/
def serialize_json_dn_properties (p : Dict) : Except PyErr Dict := do
  let encoder := p.getd ENCODER_KEY
  let p := p.insert JSON_ENCODER_NAME_KEY (optStr (← attrName encoder))
  let p := p.insert JSON_ENCODER_MODULE_KEY (optStr (← attrModule encoder))
  let p := p.erase ENCODER_KEY
  let decoder := p.getd DECODER_KEY
  let p := p.insert JSON_DECODER_NAME_KEY (optStr (← attrName decoder))
  let p := p.insert JSON_DECODER_MODULE_KEY (optStr (← attrModule decoder))
  return p.erase DECODER_KEY

/-- `_serialize_sql_dn_properties` (lines 84–91). -/
def serialize_sql_dn_properties (p : Dict) : Except PyErr Dict := do
  let qb := p.getd WRITE_QUERY_BUILDER_KEY
  let p := p.insert WRITE_QUERY_BUILDER_NAME_KEY (optStr (← attrName qb))
  let p := p.insert WRITE_QUERY_BUILDER_MODULE_KEY (optStr (← attrModule qb))
  return p.erase WRITE_QUERY_BUILDER_KEY

/-- `_serialize_mongo_collection_dn_model_properties` (lines 93–101): a
present custom-document class becomes its fully-qualified name; any
present non-class value makes the `__module__` access raise. -/
def serialize_mongo_collection_dn_model_properties (p : Dict) :
    Except PyErr Dict :=
  if p.hasKey CUSTOM_DOCUMENT_KEY then
    match p.getd CUSTOM_DOCUMENT_KEY with
    | .pobj o => .ok (p.insert CUSTOM_DOCUMENT_KEY (.pstr (fqn o)))
    | _ => .error .attributeError
  else .ok p

/-- One value of an `exposed_type` mapping or sequence on serialization:
`v if v in _VALID_STRING_EXPOSED_TYPES else f"{v.__module__}.{v.__qualname__}"`. -/
def serialize_exposed_cell (v : ExpoCell) : Except PyErr ExpoCell :=
  match v with
  | .cstr s =>
    if s ∈ VALID_STRING_EXPOSED_TYPES then .ok (.cstr s)
    else .error .attributeError
  | .cobj o => .ok (.cstr (fqn o))
  | .cnone => .error .attributeError

/-- Serialize the values of an `exposed_type` mapping key-wise. -/
def serialize_exposed_entries :
    List (String × ExpoCell) → Except PyErr (List (String × ExpoCell))
  | [] => .ok []
  | (k, c) :: rest => do
    .ok ((k, ← serialize_exposed_cell c) :: (← serialize_exposed_entries rest))

/-- Serialize the elements of an `exposed_type` sequence. -/
def serialize_exposed_cells : List ExpoCell → Except PyErr (List ExpoCell)
  | [] => .ok []
  | c :: rest => do
    .ok ((← serialize_exposed_cell c) :: (← serialize_exposed_cells rest))

/-- The `exposed_type` transformation of `_entity_to_model`
(lines 133–149): strings are kept as-is, mappings and sequences are
serialized element-wise, and any other value is replaced by its
fully-qualified name (raising `AttributeError` if it has none). -/
def serialize_exposed_type (v : PVal) : Except PyErr PVal :=
  match v with
  | .pstr s => .ok (.pstr s)
  | .pdict entries => do .ok (.pdict (← serialize_exposed_entries entries))
  | .plist elems => do .ok (.plist (← serialize_exposed_cells elems))
  | .pobj o => .ok (.pstr (fqn o))
  | _ => .error .attributeError

/-- `_serialize_edits` (lines 103–116): each edit is copied; a truthy
timestamp is serialized with `isoformat` (it must be a datetime), and a
missing/falsy one triggers the `job_ids` deprecation diagnostic and is
replaced by `datetime.now().isoformat()`. -/
def serialize_edits (now : Nat) : List Dict → Except PyErr (List Dict × List Warn)
  | [] => .ok ([], [])
  | edit :: rest => do
    let ts := edit.getd "timestamp"
    let (new_edit, w) ←
      if ts.truthy then
        match ts with
        | .ptime t =>
          Except.ok (edit.insert "timestamp" (.pstr (isoformat t)), ([] : List Warn))
        | _ => Except.error PyErr.attributeError
      else
        Except.ok (edit.insert "timestamp" (.pstr (isoformat now)), [deprJobIdsWarn])
    let (rest', ws) ← serialize_edits now rest
    .ok (new_edit :: rest', w ++ ws)

/-- The property-bag pipeline of `_entity_to_model` (lines 120–149): the
chain of `storage_type`-guarded variant serializers followed by the
`exposed_type` transformation. -/
def serialize_data_node_properties (storage_type : String) (p0 : Dict) :
    Except PyErr Dict := do
  let properties := p0
  let properties ←
    if storage_type == "generic" then serialize_generic_dn_properties properties
    else pure properties
  let properties ←
    if storage_type == "json" then serialize_json_dn_properties properties
    else pure properties
  let properties ←
    if storage_type == "sql" then serialize_sql_dn_properties properties
    else pure properties
  let properties ←
    if storage_type == "mongo_collection" then
      serialize_mongo_collection_dn_model_properties properties
    else pure properties
  if properties.hasKey EXPOSED_TYPE_KEY then do
    let v ← serialize_exposed_type (properties.getd EXPOSED_TYPE_KEY)
    pure (properties.insert EXPOSED_TYPE_KEY v)
  else pure properties

/-- `_entity_to_model` (lines 118–165). -/
def entity_to_model (now : Nat) (dn : DataNode) :
    Except PyErr (DataNodeModel × List Warn) := do
  let properties ← serialize_data_node_properties dn.storage_type dn.properties
  let (edits, ws) ← serialize_edits now dn.edits
  .ok ({ id := dn.id, config_id := dn.config_id, scope := dn.scope,
         storage_type := dn.storage_type, name := dn.name,
         owner_id := dn.owner_id,
         parent_ids := dn.parent_ids.sort (· ≤ ·),
         last_edit_date := dn.last_edit_date.map isoformat,
         edits := edits, version := dn.version,
         validity_days :=
           match dn.validity_period with
           | some t => if tdTruthy t then some (tdDays t) else none
           | none => none,
         validity_seconds :=
           match dn.validity_period with
           | some t => if tdTruthy t then some (tdSeconds t) else none
           | none => none,
         edit_in_progress := dn.edit_in_progress,
         data_node_properties := properties }, ws)

/-! ### `_DataNodeConverter` deserialization (model → entity) -/

/-- `__deserialize_generic_dn_properties` (lines 167–190): the four
serialized keys are read with `[…]` (raising `KeyError` if absent); a
truthy module is resolved through `_load_fct`; the four keys are then
`del`ed. -/
def deserialize_generic_dn_properties (reg : Registry) (p : Dict) :
    Except PyErr Dict := do
  let rm ← getItem p READ_FCT_MODULE_KEY
  let p ←
    if rm.truthy then do
      let rn ← getItem p READ_FCT_NAME_KEY
      pure (p.insert READ_FCT_KEY (← load_fct reg rm rn))
    else pure (p.insert READ_FCT_KEY .pnone)
  let wm ← getItem p WRITE_FCT_MODULE_KEY
  let p ←
    if wm.truthy then do
      let wn ← getItem p WRITE_FCT_NAME_KEY
      pure (p.insert WRITE_FCT_KEY (← load_fct reg wm wn))
    else pure (p.insert WRITE_FCT_KEY .pnone)
  let p ← delItem p READ_FCT_NAME_KEY
  let p ← delItem p READ_FCT_MODULE_KEY
  let p ← delItem p WRITE_FCT_NAME_KEY
  let p ← delItem p WRITE_FCT_MODULE_KEY
  return p

/-- `__deserialize_json_dn_properties` (lines 192–215). -/
def deserialize_json_dn_properties (reg : Registry) (p : Dict) :
    Except PyErr Dict := do
  let em ← getItem p JSON_ENCODER_MODULE_KEY
  let p ←
    if em.truthy then do
      let en ← getItem p JSON_ENCODER_NAME_KEY
      pure (p.insert ENCODER_KEY (← load_fct reg em en))
    else pure (p.insert ENCODER_KEY .pnone)
  let dm ← getItem p JSON_DECODER_MODULE_KEY
  let p ←
    if dm.truthy then do
      let dnm ← getItem p JSON_DECODER_NAME_KEY
      pure (p.insert DECODER_KEY (← load_fct reg dm dnm))
    else pure (p.insert DECODER_KEY .pnone)
  let p ← delItem p JSON_ENCODER_NAME_KEY
  let p ← delItem p JSON_ENCODER_MODULE_KEY
  let p ← delItem p JSON_DECODER_NAME_KEY
  let p ← delItem p JSON_DECODER_MODULE_KEY
  return p

/-- `_deserialize_sql_dn_model_properties` (lines 217–231). -/
def deserialize_sql_dn_model_properties (reg : Registry) (p : Dict) :
    Except PyErr Dict := do
  let qm ← getItem p WRITE_QUERY_BUILDER_MODULE_KEY
  let p ←
    if qm.truthy then do
      let qn ← getItem p WRITE_QUERY_BUILDER_NAME_KEY
      pure (p.insert WRITE_QUERY_BUILDER_KEY (← load_fct reg qm qn))
    else pure (p.insert WRITE_QUERY_BUILDER_KEY .pnone)
  let p ← delItem p WRITE_QUERY_BUILDER_NAME_KEY
  let p ← delItem p WRITE_QUERY_BUILDER_MODULE_KEY
  return p

/-- `_deserialize_mongo_collection_dn_model_properties` (lines 233–240):
a present custom-document string is resolved with `pydoc.locate`, which
silently yields `None` on failure; non-string values are left unchanged. -/
def deserialize_mongo_collection_dn_model_properties (reg : Registry)
    (p : Dict) : Except PyErr Dict :=
  if p.hasKey CUSTOM_DOCUMENT_KEY then
    match p.getd CUSTOM_DOCUMENT_KEY with
    | .pstr s =>
      .ok (p.insert CUSTOM_DOCUMENT_KEY
        (match reg.locate s with
         | some o => .pobj o
         | none => .pnone))
    | _ => .ok p
  else .ok p

/-- One value of an `exposed_type` mapping or sequence on
deserialization: `v if v in _VALID_STRING_EXPOSED_TYPES else locate(v)` —
`pydoc.locate` only accepts strings (it calls `path.split`). -/
def deserialize_exposed_cell (reg : Registry) (v : ExpoCell) :
    Except PyErr ExpoCell :=
  match v with
  | .cstr s =>
    if s ∈ VALID_STRING_EXPOSED_TYPES then .ok (.cstr s)
    else
      .ok (match reg.locate s with
           | some o => .cobj o
           | none => .cnone)
  | _ => .error .attributeError

/-- Deserialize the values of an `exposed_type` mapping key-wise. -/
def deserialize_exposed_entries (reg : Registry) :
    List (String × ExpoCell) → Except PyErr (List (String × ExpoCell))
  | [] => .ok []
  | (k, c) :: rest => do
    .ok ((k, ← deserialize_exposed_cell reg c) ::
         (← deserialize_exposed_entries reg rest))

/-- Deserialize the elements of an `exposed_type` sequence. -/
def deserialize_exposed_cells (reg : Registry) :
    List ExpoCell → Except PyErr (List ExpoCell)
  | [] => .ok []
  | c :: rest => do
    .ok ((← deserialize_exposed_cell reg c) ::
         (← deserialize_exposed_cells reg rest))

/-- `exposed_type in _VALID_STRING_EXPOSED_TYPES`: only a string can
compare equal to one of the whitelisted tokens. -/
def isValidExposed (v : PVal) : Bool :=
  match v with
  | .pstr s => s ∈ VALID_STRING_EXPOSED_TYPES
  | _ => false

/-- The `exposed_type` transformation of `_model_to_entity`
(lines 270–281), applied when the value is not a whitelisted token:
strings go through `pydoc.locate` (possibly yielding `None`); mappings and
sequences are resolved element-wise; any other value falls through every
`isinstance` check and is left unchanged. -/
def deserialize_exposed_type (reg : Registry) (v : PVal) :
    Except PyErr PVal :=
  match v with
  | .pstr s =>
    .ok (match reg.locate s with
         | some o => .pobj o
         | none => .pnone)
  | .pdict entries => do .ok (.pdict (← deserialize_exposed_entries reg entries))
  | .plist elems => do .ok (.plist (← deserialize_exposed_cells reg elems))
  | _ => .ok v

/-- The per-edit timestamp rule of `_deserialize_edits`: a truthy
timestamp must be a string and is parsed with `fromisoformat` (raising on
malformed input); a missing/falsy one triggers the `job_ids` deprecation
diagnostic and is replaced by `datetime.now()`. -/
def deserialize_edit_timestamp (now : Nat) (ts : PVal) :
    Except PyErr (PVal × List Warn) :=
  if ts.truthy then
    match ts with
    | .pstr s =>
      match fromisoformat s with
      | some t => .ok (.ptime t, [])
      | none => .error (.valueError s)
    | _ => .error .typeError
  else .ok (.ptime now, [deprJobIdsWarn])

/-- `_deserialize_edits` (lines 242–253), value-level view: each edit's
`"timestamp"` entry is replaced according to
`deserialize_edit_timestamp`. (The in-place nature of the source loop is
modelled separately by `deserialize_edits_in_place`.) -/
def deserialize_edits (now : Nat) : List Dict → Except PyErr (List Dict × List Warn)
  | [] => .ok ([], [])
  | edit :: rest => do
    let (ts, w) ← deserialize_edit_timestamp now (edit.getd "timestamp")
    let (rest', ws) ← deserialize_edits now rest
    .ok (edit.insert "timestamp" ts :: rest', w ++ ws)

/-- The property-bag pipeline of `_model_to_entity` (lines 257–284): the
chain of `storage_type`-guarded variant deserializers, the `exposed_type`
transformation (guarded by the whitelist membership test), and the
mongo-collection deserializer, in source order. -/
def deserialize_data_node_properties (reg : Registry) (storage_type : String)
    (p0 : Dict) : Except PyErr Dict := do
  let props := p0
  let props ←
    if storage_type == "generic" then deserialize_generic_dn_properties reg props
    else pure props
  let props ←
    if storage_type == "json" then deserialize_json_dn_properties reg props
    else pure props
  let props ←
    if storage_type == "sql" then deserialize_sql_dn_model_properties reg props
    else pure props
  let props ←
    if props.hasKey EXPOSED_TYPE_KEY then
      if isValidExposed (props.getd EXPOSED_TYPE_KEY) then pure props
      else do
        let v ← deserialize_exposed_type reg (props.getd EXPOSED_TYPE_KEY)
        pure (props.insert EXPOSED_TYPE_KEY v)
    else pure props
  if storage_type == "mongo_collection" then
    deserialize_mongo_collection_dn_model_properties reg props
  else pure props

/-- `_model_to_entity` (lines 255–304). The variant constructor is looked
up in `DataNode._class_map()` before the keyword arguments are evaluated
(Python evaluates the indexing `…[storage_type]` first), so an unknown
`storage_type` raises its `KeyError` before timestamps are parsed. -/
def model_to_entity (reg : Registry) (now : Nat) (m : DataNodeModel) :
    Except PyErr (DataNode × List Warn) := do
  let props ← deserialize_data_node_properties reg m.storage_type m.data_node_properties
  let validity_period :=
    match m.validity_seconds, m.validity_days with
    | some s, some d => some (mkTimedelta d s)
    | _, _ => none
  let ctor ←
    match classMap m.storage_type with
    | some c => Except.ok c
    | none => Except.error (PyErr.keyError m.storage_type)
  let last_edit_date ←
    match m.last_edit_date with
    | some s =>
      if s == "" then Except.ok (none : Option Nat)
      else
        match fromisoformat s with
        | some t => Except.ok (some t)
        | none => Except.error (PyErr.valueError s)
    | none => Except.ok none
  let (edits, ws) ← deserialize_edits now m.edits
  let dn := ctor
    { config_id := m.config_id, scope := m.scope, id := m.id,
      name := m.name, owner_id := m.owner_id,
      parent_ids := m.parent_ids.toFinset,
      last_edit_date := last_edit_date, edits := edits,
      version := m.version, validity_period := validity_period,
      edit_in_progress := m.edit_in_progress, properties := props }
  .ok (migrateEntity dn, ws)

/-! ### The mutable view of `_deserialize_edits` (for the frame-effect claim)

Python dicts are heap objects. `model.edits` is a list of references to
edit dicts; `copy(model.edits)` in `_model_to_entity` copies only the list,
so the loop of `_deserialize_edits` assigns `edit["timestamp"] = …` on the
very dicts the input model still references. -/

/-- A heap of edit dicts; a reference is an index into it. -/
abbrev EditHeap := List Dict

/-- `copy(lst)` — a shallow copy: the same dict references. -/
def pyListCopy (refs : List Nat) : List Nat := refs

/-- `_deserialize_edits` (lines 242–253) in the mutable view: the loop
mutates each referenced dict in place. -/
def deserialize_edits_in_place (now : Nat) :
    List Nat → EditHeap → Except PyErr (EditHeap × List Warn)
  | [], h => .ok (h, [])
  | r :: rest, h => do
    let edit := (h.get? r).getD ∅
    let (ts, w) ← deserialize_edit_timestamp now (edit.getd "timestamp")
    let h := h.set r (edit.insert "timestamp" ts)
    let (h', ws) ← deserialize_edits_in_place now rest h
    .ok (h', w ++ ws)

/-! ### The repository façade

Modelled from the spec: the Repository (§4.3) and the Backend contract
(§6) are not part of the sources under verification (only their tests
are). Per §6 the Repository is agnostic to the physical encoding and
requires any Backend — file-based or SQL-based alike — only to faithfully
round-trip the Model's field set through `put`/`get`/`scan`/`delete`, so a
Backend state is modelled as an id-keyed association list of persisted
Models, and each operation below is the spec's description of the façade
over that contract. -/
abbrev Repo := List (String × DataNodeModel)

/-- Modelled from the spec: `get(id)` of the Backend contract. -/
def repoFind (r : Repo) (id : String) : Option DataNodeModel :=
  (r.find? (fun p => p.1 == id)).map (·.2)

/-- Modelled from the spec: `put(id, record)` — `save` "upserts one
entity by identifier" (§4.3). -/
def repoUpsert (r : Repo) (id : String) (m : DataNodeModel) : Repo :=
  if r.any (fun p => p.1 == id) then
    r.map (fun p => if p.1 == id then (id, m) else p)
  else r ++ [(id, m)]

/-- Modelled from the spec: `save(entity)` — convert through
`_entity_to_model` and persist via the Backend. -/
def repoSave (now : Nat) (r : Repo) (dn : DataNode) : Except PyErr Repo := do
  let (m, _) ← entity_to_model now dn
  .ok (repoUpsert r dn.id m)

/-- Save a list of entities in order. -/
def repoSaveAll (now : Nat) : Repo → List DataNode → Except PyErr Repo
  | r, [] => .ok r
  | r, dn :: rest => do repoSaveAll now (← repoSave now r dn) rest

/-- Modelled from the spec: `load_all()` — scan the Backend and convert
each persisted Model through `_model_to_entity`. -/
def repoLoadAll (reg : Registry) (now : Nat) : Repo → Except PyErr (List DataNode)
  | [] => .ok []
  | p :: rest => do
    let (dn, _) ← model_to_entity reg now p.2
    .ok (dn :: (← repoLoadAll reg now rest))

/-- Modelled from the spec: `delete_many(ids)` — remove the listed ids;
absent ids are a no-op. -/
def repoDeleteMany (r : Repo) (ids : List String) : Repo :=
  r.filter (fun p => !(ids.contains p.1))

/-- Exact-equality access to a Model's scalar fields, for
`search(field, value)`. -/
def modelField (m : DataNodeModel) (field : String) : Option String :=
  if field == "id" then some m.id
  else if field == "config_id" then some m.config_id
  else if field == "storage_type" then some m.storage_type
  else if field == "name" then m.name
  else if field == "owner_id" then m.owner_id
  else if field == "version" then some m.version
  else none

/-- The same scalar fields read off a `DataNode` entity. -/
def nodeField (dn : DataNode) (field : String) : Option String :=
  if field == "id" then some dn.id
  else if field == "config_id" then some dn.config_id
  else if field == "storage_type" then some dn.storage_type
  else if field == "name" then dn.name
  else if field == "owner_id" then dn.owner_id
  else if field == "version" then some dn.version
  else none

/-- Modelled from the spec: `search(field, value)` — "returns the first
entity whose given field equals value; fails with NotFoundError if none
match" (§4.3). -/
def repoSearch (reg : Registry) (now : Nat) (r : Repo) (field value : String) :
    Except PyErr DataNode :=
  match r.find? (fun p => modelField p.2 field == some value) with
  | some p => (model_to_entity reg now p.2).map (·.1)
  | none => .error .modelNotFound

/-- Modelled from the spec: `export(id, destination)` — "writes a
canonical, backend-independent serialized form (the Model, not
backend-native bytes) of one persisted entity" to
`<destination>/<entity-kind-label>/<id>.<ext>` (§4.3, §6); the result is
the written path and the written payload. -/
def repoExport (r : Repo) (id dest : String) :
    Except PyErr (String × DataNodeModel) :=
  match repoFind r id with
  | some m => .ok (dest ++ "/data_node/" ++ id ++ ".json", m)
  | none => .error .modelNotFound

/-! ### Concrete instances and shape predicates used by the claims -/

/-- The trivial Registry: resolves nothing. -/
def emptyRegistry : Registry := ⟨fun _ _ => none, fun _ => none⟩

/-- The `exposed_type` entry (if present) has a shape whose
deserialization cannot raise: mapping/sequence elements must be strings
(`pydoc.locate` rejects anything else). -/
def exposedDeserializable (p : Dict) : Bool :=
  match p.lookup EXPOSED_TYPE_KEY with
  | none => true
  | some (.pdict entries) =>
    entries.all fun kv => match kv.2 with | .cstr _ => true | _ => false
  | some (.plist cells) =>
    cells.all fun c => match c with | .cstr _ => true | _ => false
  | some _ => true

/-- A generic-kind entity whose property bag lacks the optional read/write
callable keys entirely. -/
def genericEntityNoCallableKeys : DataNode :=
  { id := "DATANODE_x", config_id := "cfg", scope := 0,
    storage_type := "generic", name := none, owner_id := none,
    parent_ids := ∅, last_edit_date := none, edits := [], version := "2.1",
    validity_period := none, edit_in_progress := false, properties := ∅ }

/-- A model with an unrecognized storage type (and a malformed last-edit
timestamp, which the class-map lookup failure preempts). -/
def c6Model : DataNodeModel :=
  { id := "DATANODE_u", config_id := "cfg", scope := 0,
    storage_type := "kafka", name := none, owner_id := none,
    parent_ids := [], last_edit_date := some "not a timestamp", edits := [],
    version := "2.1", validity_days := none, validity_seconds := none,
    edit_in_progress := false, data_node_properties := ∅ }

/-- A legacy edit record carrying only a job reference, no timestamp. -/
def c5Edit : Dict := (∅ : Dict).insert "job_id" (.pstr "JOB_1")

/-- An entity with a zero (hence falsy) validity period. -/
def zeroValidityEntity : DataNode :=
  { id := "DATANODE_z", config_id := "cfg", scope := 1,
    storage_type := "pickle", name := some "z", owner_id := none,
    parent_ids := ∅, last_edit_date := none, edits := [], version := "2.1",
    validity_period := some 0, edit_in_progress := false, properties := ∅ }

/-- What `_entity_to_model` produces for `zeroValidityEntity`: both
validity components are null although the entity's period is non-null. -/
def zeroValidityModel : DataNodeModel :=
  { id := "DATANODE_z", config_id := "cfg", scope := 1,
    storage_type := "pickle", name := some "z", owner_id := none,
    parent_ids := [], last_edit_date := none, edits := [], version := "2.1",
    validity_days := none, validity_seconds := none,
    edit_in_progress := false, data_node_properties := ∅ }

/-- An entity with a whole-second, nonzero validity period (3 seconds). -/
def wholeValidityEntity : DataNode :=
  { id := "DATANODE_w", config_id := "cfg", scope := 1,
    storage_type := "pickle", name := some "w", owner_id := none,
    parent_ids := ∅, last_edit_date := none, edits := [], version := "2.1",
    validity_period := some 3000000, edit_in_progress := false,
    properties := ∅ }

/-- Its serialized model: 0 days, 3 seconds. -/
def wholeValidityModel : DataNodeModel :=
  { id := "DATANODE_w", config_id := "cfg", scope := 1,
    storage_type := "pickle", name := some "w", owner_id := none,
    parent_ids := [], last_edit_date := none, edits := [], version := "2.1",
    validity_days := some 0, validity_seconds := some 3,
    edit_in_progress := false, data_node_properties := ∅ }

/-- A mongo-collection entity (a claimed variant) with a zero validity
period — the round-trip counterexample input. -/
def c1ZeroEntity : DataNode :=
  { id := "DATANODE_c1", config_id := "cfg", scope := 1,
    storage_type := "mongo_collection", name := some "n", owner_id := none,
    parent_ids := ∅, last_edit_date := none, edits := [], version := "2.1",
    validity_period := some 0, edit_in_progress := false, properties := ∅ }

/-- Its serialized model. -/
def c1ZeroModel : DataNodeModel :=
  { id := "DATANODE_c1", config_id := "cfg", scope := 1,
    storage_type := "mongo_collection", name := some "n", owner_id := none,
    parent_ids := [], last_edit_date := none, edits := [], version := "2.1",
    validity_days := none, validity_seconds := none,
    edit_in_progress := false, data_node_properties := ∅ }

/-- What the round trip returns: the validity period has been lost. -/
def c1ZeroRoundtrip : DataNode :=
  { c1ZeroEntity with validity_period := none }

/-- A cell round-trips when it is a whitelisted token, or a type whose
fully-qualified name the registry's locator inverts and which does not
collide with the whitelist. -/
def cellRoundtrippable (reg : Registry) (c : ExpoCell) : Bool :=
  match c with
  | .cstr s => s ∈ VALID_STRING_EXPOSED_TYPES
  | .cobj o =>
    (reg.locate (fqn o) == some o) && !(fqn o ∈ VALID_STRING_EXPOSED_TYPES)
  | .cnone => false

/-- The claim's exposed-type shapes: a whitelisted token, an arbitrary
type, or a mapping/sequence of those. -/
def exposedRoundtrippable (reg : Registry) (v : PVal) : Bool :=
  match v with
  | .pstr s => s ∈ VALID_STRING_EXPOSED_TYPES
  | .pobj o => cellRoundtrippable reg (.cobj o)
  | .pdict entries => entries.all fun kv => cellRoundtrippable reg kv.2
  | .plist cells => cells.all (cellRoundtrippable reg)
  | _ => false

/-- A concrete custom type for the exposed-type witness. -/
def c4Type : PyObj := ⟨"mymod", "MyT", "MyT"⟩

/-- A registry that locates exactly `mymod.MyT`. -/
def c4Registry : Registry :=
  ⟨fun _ _ => none, fun s => if s == "mymod.MyT" then some c4Type else none⟩

/-- A mapping-shaped exposed type mixing a whitelisted token and a type. -/
def c4Value : PVal := .pdict [("a", .cstr "pandas"), ("b", .cobj c4Type)]

/-- A heap of two edit dicts: one with an ISO timestamp, one with only a
job reference. -/
def c10Heap : EditHeap :=
  [(∅ : Dict).insert "timestamp" (.pstr (isoformat 4)), c5Edit]

/-- The same heap after `_deserialize_edits` mutated both dicts. -/
def c10HeapAfter : EditHeap :=
  [((∅ : Dict).insert "timestamp" (.pstr (isoformat 4))).insert "timestamp"
      (.ptime 4),
   c5Edit.insert "timestamp" (.ptime 9)]

/-! ### Representativeness predicates and witness data for the amended round trip -/

/-- A callable-valued property is representative when it is `None` or an
object with a nonempty module name that `_load_fct` resolves back to it. -/
def loadInv (reg : Registry) (v : PVal) : Bool :=
  match v with
  | .pnone => true
  | .pobj o => (!(o.mod == "")) && (reg.loadFct o.mod o.name == some o)
  | _ => false

/-- An edit is representative when a truthy timestamp is a datetime. -/
def editOk (d : Dict) : Bool :=
  if (d.getd "timestamp").truthy then
    match d.getd "timestamp" with | .ptime _ => true | _ => false
  else true

/-- The filled-in form of an edit after a round trip: an edit without a
truthy timestamp comes back stamped with the serialization-time clock. -/
def fillEdit (now : Nat) (d : Dict) : Dict :=
  if (d.getd "timestamp").truthy then d else d.insert "timestamp" (.ptime now)

/-- A callable-key entry is representative when present and `loadInv`. -/
def loadInvOpt (reg : Registry) : Option PVal → Bool
  | some v => loadInv reg v
  | none => false

/-- `__name__ if f else None` and `__module__ if f else None` on a
representative callable value. -/
def nameOf : PVal → PVal
  | .pobj o => .pstr o.name
  | _ => .pnone

def modOf : PVal → PVal
  | .pobj o => .pstr o.mod
  | _ => .pnone

def nameOpt : PVal → Option String
  | .pobj o => some o.name
  | _ => none

def modOpt : PVal → Option String
  | .pobj o => some o.mod
  | _ => none

/-- A representative generic property bag: both callable keys present and
registry-invertible, the four reserved serialization keys absent. -/
def genericPropsOk (reg : Registry) (p : Dict) : Bool :=
  loadInvOpt reg (p.lookup READ_FCT_KEY) &&
  loadInvOpt reg (p.lookup WRITE_FCT_KEY) &&
  (p.lookup READ_FCT_NAME_KEY).isNone &&
  (p.lookup READ_FCT_MODULE_KEY).isNone &&
  (p.lookup WRITE_FCT_NAME_KEY).isNone &&
  (p.lookup WRITE_FCT_MODULE_KEY).isNone

/-- A representative JSON property bag. -/
def jsonPropsOk (reg : Registry) (p : Dict) : Bool :=
  loadInvOpt reg (p.lookup ENCODER_KEY) &&
  loadInvOpt reg (p.lookup DECODER_KEY) &&
  (p.lookup JSON_ENCODER_NAME_KEY).isNone &&
  (p.lookup JSON_ENCODER_MODULE_KEY).isNone &&
  (p.lookup JSON_DECODER_NAME_KEY).isNone &&
  (p.lookup JSON_DECODER_MODULE_KEY).isNone

/-- A representative SQL property bag. -/
def sqlPropsOk (reg : Registry) (p : Dict) : Bool :=
  loadInvOpt reg (p.lookup WRITE_QUERY_BUILDER_KEY) &&
  (p.lookup WRITE_QUERY_BUILDER_NAME_KEY).isNone &&
  (p.lookup WRITE_QUERY_BUILDER_MODULE_KEY).isNone

/-- A representative mongo-collection property bag: a present custom
document is a class whose fully-qualified name the locator inverts. -/
def mongoPropsOk (reg : Registry) (p : Dict) : Bool :=
  match p.lookup CUSTOM_DOCUMENT_KEY with
  | none => true
  | some (.pobj o) => reg.locate (fqn o) == some o
  | some _ => false

/-- A representative property bag for a given known variant: the
variant-specific keys are representative and a present `exposed_type`
value has one of the claim's round-trippable shapes. -/
def propsOk (reg : Registry) (st : String) (p : Dict) : Bool :=
  (if st == "generic" then genericPropsOk reg p
   else if st == "json" then jsonPropsOk reg p
   else if st == "sql" then sqlPropsOk reg p
   else if st == "mongo_collection" then mongoPropsOk reg p
   else false) &&
  (match p.lookup EXPOSED_TYPE_KEY with
   | none => true
   | some v => exposedRoundtrippable reg v)

/-- The document class of the round-trip witness entity. -/
def c1Doc : PyObj := ⟨"mymod", "MyDoc", "MyDoc"⟩

/-- A registry that locates exactly the witness's document class. -/
def c1Registry : Registry :=
  ⟨fun _ _ => none, fun s => if s == "mymod.MyDoc" then some c1Doc else none⟩

/-- A mongo-collection witness entity: a resolvable custom document, a
whitelisted `exposed_type`, a timestamped edit and a legacy one, a parent,
a last edit date and a whole-second validity period. -/
def c1WitnessEntity : DataNode :=
  { id := "DATANODE_rt", config_id := "cfg", scope := 1,
    storage_type := "mongo_collection", name := some "n", owner_id := none,
    parent_ids := {"SCENARIO_p"}, last_edit_date := some 42,
    edits := [(∅ : Dict).insert "timestamp" (.ptime 9), c5Edit],
    version := "2.1", validity_period := some 3000000,
    edit_in_progress := false,
    properties := ((∅ : Dict).insert CUSTOM_DOCUMENT_KEY
      (.pobj c1Doc)).insert EXPOSED_TYPE_KEY (.pstr "pandas") }

/-! ### Concrete store scenario for the repository claims -/

/-- A minimal pickle-kind entity with the given id (also used as name). -/
def c7Entity (s : String) : DataNode :=
  { id := s, config_id := "cfg", scope := 1,
    storage_type := "pickle", name := some s, owner_id := none,
    parent_ids := ∅, last_edit_date := none, edits := [], version := "2.1",
    validity_period := none, edit_in_progress := false, properties := ∅ }

/-- The ten entities of the concrete scenario. -/
def c7Es : List DataNode :=
  ["data_node-0", "data_node-1", "data_node-2", "data_node-3",
   "data_node-4", "data_node-5", "data_node-6", "data_node-7",
   "data_node-8", "data_node-9"].map c7Entity

/-- The persisted model of `c7Entity s`. -/
def c7Model (s : String) : DataNodeModel :=
  { id := s, config_id := "cfg", scope := 1,
    storage_type := "pickle", name := some s, owner_id := none,
    parent_ids := [], last_edit_date := none, edits := [], version := "2.1",
    validity_days := none, validity_seconds := none,
    edit_in_progress := false, data_node_properties := ∅ }

/-- The store after saving the ten entities. -/
def c7Repo : Repo :=
  ["data_node-0", "data_node-1", "data_node-2", "data_node-3",
   "data_node-4", "data_node-5", "data_node-6", "data_node-7",
   "data_node-8", "data_node-9"].map (fun s => (s, c7Model s))

/-- The ids of the first three loaded entities. -/
def c7DelIds : List String := ["data_node-0", "data_node-1", "data_node-2"]

/-! ### Lemmas about the modelled stdlib functions -/

theorem charDigit?_digitChar {d : Nat} (h : d < 10) :
    charDigit? (digitChar d) = some d := by
  interval_cases d <;> rfl

theorem parseDigits_map_digitChar {l : List Nat} (h : ∀ d ∈ l, d < 10) :
    parseDigits (l.map digitChar) = some l := by
  induction l with
  | nil => rfl
  | cons d ds ih =>
    simp only [List.map_cons, parseDigits,
      charDigit?_digitChar (h d (List.mem_cons_self d ds)), Option.bind_eq_bind,
      Option.some_bind, ih (fun x hx => h x (List.mem_cons_of_mem d hx))]

/-- The timestamp codec round-trips: the model's counterpart of the stdlib
guarantee `fromisoformat (isoformat t) = t`. -/
theorem fromisoformat_isoformat (t : Nat) :
    fromisoformat (isoformat t) = some t := by
  have hd : ∀ d ∈ Nat.digits 10 t, d < 10 := fun d hdm =>
    Nat.digits_lt_base (by norm_num) hdm
  simp [fromisoformat, isoformat, parseDigits_map_digitChar hd,
    Nat.ofDigits_digits]

/-- `isoformat` never produces the empty (falsy) string. -/
theorem isoformat_ne_empty (t : Nat) : isoformat t ≠ "" := by
  simp only [isoformat, ne_eq, String.ext_iff]
  simp

/-- Reconstructing a whole-second duration from its `.days`/`.seconds`
attributes gives back the duration (sub-second parts would be dropped). -/
theorem mkTimedelta_days_seconds {t : Int} (h : t % 1000000 = 0) :
    mkTimedelta (tdDays t) (tdSeconds t) = t := by
  simp only [mkTimedelta, tdDays, tdSeconds, usPerDay, usPerSec] at *
  omega


/-! ### Reduction and dictionary lemmas -/

@[simp] theorem exceptBind_ok (a : α) (f : α → Except ε β) :
    (bind (Except.ok a) f : Except ε β) = f a := rfl

@[simp] theorem exceptBind_error (e : ε) (f : α → Except ε β) :
    (bind (Except.error e) f : Except ε β) = Except.error e := rfl

@[simp] theorem exceptPure_def (a : α) : (pure a : Except ε α) = Except.ok a := rfl

/-- Re-inserting a value a dict already maps a key to leaves it unchanged. -/
theorem dict_insert_self {d : Dict} {k : String} {v : PVal}
    (h : d.lookup k = some v) : d.insert k v = d :=
  Finmap.ext_lookup fun x => by
    by_cases hx : x = k
    · subst hx; rw [Finmap.lookup_insert, h]
    · rw [Finmap.lookup_insert_of_ne _ hx]

@[simp] theorem getd_insert_same (d : Dict) (k : String) (v : PVal) :
    (d.insert k v).getd k = v := by
  simp [Finmap.getd, Finmap.lookup_insert]

theorem getd_insert_ne (d : Dict) {k k' : String} (v : PVal) (h : k' ≠ k) :
    (d.insert k v).getd k' = d.getd k' := by
  simp [Finmap.getd, Finmap.lookup_insert_of_ne _ h]

@[simp] theorem hasKey_insert_same (d : Dict) (k : String) (v : PVal) :
    (d.insert k v).hasKey k = true := by
  simp [Finmap.hasKey, Finmap.lookup_insert]

theorem hasKey_insert_ne (d : Dict) {k k' : String} (v : PVal) (h : k' ≠ k) :
    (d.insert k v).hasKey k' = d.hasKey k' := by
  simp [Finmap.hasKey, Finmap.lookup_insert_of_ne _ h]

/-! ### Field-level inversion of the converters -/

/-- The validity serialization rule of `_entity_to_model` (lines 161–162):
a falsy (absent or zero) validity period yields `None`, otherwise the
given attribute of the `timedelta`. -/
def validityOut (vp : Option Int) (f : Int → Int) : Option Int :=
  match vp with
  | some t => if tdTruthy t then some (f t) else none
  | none => none

/-- The validity reconstruction rule of `_model_to_entity`
(lines 286–288): a `timedelta` is rebuilt iff both components are
non-null. -/
def validityIn (vs vd : Option Int) : Option Int :=
  match vs, vd with
  | some s, some d => some (mkTimedelta d s)
  | _, _ => none

/-- Whenever `_entity_to_model` succeeds, every Model field other than the
property bag and the edit list is determined by the entity as the source
writes it. -/
theorem entity_to_model_ok_common {now : Nat} {dn : DataNode} {m : DataNodeModel}
    {ws : List Warn} (h : entity_to_model now dn = .ok (m, ws)) :
    m.id = dn.id ∧ m.config_id = dn.config_id ∧ m.scope = dn.scope ∧
    m.storage_type = dn.storage_type ∧ m.name = dn.name ∧
    m.owner_id = dn.owner_id ∧
    m.parent_ids = dn.parent_ids.sort (· ≤ ·) ∧
    m.last_edit_date = dn.last_edit_date.map isoformat ∧
    m.version = dn.version ∧
    m.validity_days = validityOut dn.validity_period tdDays ∧
    m.validity_seconds = validityOut dn.validity_period tdSeconds ∧
    m.edit_in_progress = dn.edit_in_progress := by
  simp only [entity_to_model, bind, Except.bind] at h
  split at h
  · cases h
  · split at h
    · cases h
    · cases h
      refine ⟨rfl, rfl, rfl, rfl, rfl, rfl, rfl, rfl, rfl, ?_, ?_, rfl⟩ <;>
        simp [validityOut]

/-- Whenever `_model_to_entity` succeeds, every entity field other than the
property bag, the edit list and the parsed last-edit date is determined by
the model as the source writes it. -/
theorem model_to_entity_ok_common {reg : Registry} {now : Nat}
    {m : DataNodeModel} {dn : DataNode} {ws : List Warn}
    (h : model_to_entity reg now m = .ok (dn, ws)) :
    dn.id = m.id ∧ dn.config_id = m.config_id ∧ dn.scope = m.scope ∧
    dn.storage_type = m.storage_type ∧ dn.name = m.name ∧
    dn.owner_id = m.owner_id ∧ dn.parent_ids = m.parent_ids.toFinset ∧
    dn.version = m.version ∧
    dn.validity_period = validityIn m.validity_seconds m.validity_days ∧
    dn.edit_in_progress = m.edit_in_progress := by
  simp only [model_to_entity, bind, Except.bind] at h
  split at h
  · cases h
  · split at h
    case h_2 => cases h
    case h_1 c hc =>
      simp only [classMap] at hc
      split at hc
      · cases hc
        repeat' split at h
        all_goals cases h
        all_goals simp [migrateEntity, validityIn, *]
      · cases hc

/-! ### Supporting lemmas on exposed-type deserialization -/

theorem deserialize_exposed_entries_ok {reg : Registry}
    {l : List (String × ExpoCell)}
    (h : (l.all fun kv => match kv.2 with | .cstr _ => true | _ => false) = true) :
    ∃ l', deserialize_exposed_entries reg l = .ok l' := by
  induction l with
  | nil => exact ⟨[], rfl⟩
  | cons kv rest ih =>
    simp only [List.all_cons, Bool.and_eq_true] at h
    obtain ⟨l', hl'⟩ := ih h.2
    obtain ⟨k, c⟩ := kv
    match c, h.1 with
    | .cstr s, _ =>
      by_cases htok : s ∈ VALID_STRING_EXPOSED_TYPES <;>
        simp [deserialize_exposed_entries, deserialize_exposed_cell, htok,
          hl', bind, Except.bind]

theorem deserialize_exposed_cells_ok {reg : Registry} {l : List ExpoCell}
    (h : (l.all fun c => match c with | .cstr _ => true | _ => false) = true) :
    ∃ l', deserialize_exposed_cells reg l = .ok l' := by
  induction l with
  | nil => exact ⟨[], rfl⟩
  | cons c rest ih =>
    simp only [List.all_cons, Bool.and_eq_true] at h
    obtain ⟨l', hl'⟩ := ih h.2
    match c, h.1 with
    | .cstr s, _ =>
      by_cases htok : s ∈ VALID_STRING_EXPOSED_TYPES <;>
        simp [deserialize_exposed_cells, deserialize_exposed_cell, htok,
          hl', bind, Except.bind]

/-- On an unknown storage type the property pipeline of `_model_to_entity`
only runs the `exposed_type` step, which succeeds on deserializable
shapes. -/
theorem deserialize_props_unknown {reg : Registry} {st : String} {p : Dict}
    (hg : st ≠ "generic") (hj : st ≠ "json") (hs : st ≠ "sql")
    (hm : st ≠ "mongo_collection")
    (hexp : exposedDeserializable p = true) :
    ∃ q, deserialize_data_node_properties reg st p = .ok q := by
  simp only [deserialize_data_node_properties, bind, Except.bind,
    beq_iff_eq, if_neg hg, if_neg hj, if_neg hs, if_neg hm, exceptPure_def]
  by_cases hk : p.hasKey EXPOSED_TYPE_KEY
  · simp only [hk, if_true]
    by_cases hv : isValidExposed (p.getd EXPOSED_TYPE_KEY)
    · simp [hv]
    · simp only [hv, if_false, Bool.false_eq_true]
      unfold exposedDeserializable at hexp
      have hl : p.lookup EXPOSED_TYPE_KEY = some (p.getd EXPOSED_TYPE_KEY) := by
        simp only [Finmap.hasKey] at hk
        simp [Finmap.getd, Option.isSome_iff_exists] at hk ⊢
        obtain ⟨v, hv'⟩ := hk
        simp [hv']
      rw [hl] at hexp
      match hval : p.getd EXPOSED_TYPE_KEY, hexp with
      | .pnone, _ | .pbool _, _ | .pstr _, _ | .pobj _, _ | .ptime _, _
      | .pother _, _ => exact ⟨_, rfl⟩
      | .pdict entries, he =>
        obtain ⟨l', hl'⟩ := @deserialize_exposed_entries_ok reg _ he
        simp [deserialize_exposed_type, hl', bind, Except.bind]
      | .plist cells, he =>
        obtain ⟨l', hl'⟩ := @deserialize_exposed_cells_ok reg _ he
        simp [deserialize_exposed_type, hl', bind, Except.bind]
  · simp [hk]

/-! ### The claims -/

/-- C2 (code bug): the spec promises `_entity_to_model` is total for
generic-kind entities even when the optional read/write callable
properties are absent ("symbolic name and namespace — or null if
absent"), and `__serialize_generic_dn_properties` indeed reads them with
`.get(…, None)` — but it then unconditionally `del`s both keys, so a
generic entity whose bag lacks `"read_fct"` makes the conversion raise
`KeyError('read_fct')` instead of succeeding with null fields. -/
theorem C2_generic_absent_callables_raise :
    entity_to_model 0 genericEntityNoCallableKeys =
      .error (.keyError READ_FCT_KEY) := by rfl

/-- C6 (confirmed): for every model whose storage type is not a key of
the variant constructor registry (and whose `exposed_type` payload, if
any, is a deserializable shape), `_model_to_entity` fails with the
`KeyError` of the class-map lookup, keyed by the unknown storage type —
the failure mode the spec names UnknownVariantError — deterministically
and without retry, before timestamps are even parsed. -/
theorem C6_unknown_variant (reg : Registry) (now : Nat) (m : DataNodeModel)
    (hst : m.storage_type ∉ knownStorageTypes)
    (hexp : exposedDeserializable m.data_node_properties = true) :
    model_to_entity reg now m = .error (.keyError m.storage_type) := by
  have hg : m.storage_type ≠ "generic" := fun h => hst (by rw [h]; decide)
  have hj : m.storage_type ≠ "json" := fun h => hst (by rw [h]; decide)
  have hs : m.storage_type ≠ "sql" := fun h => hst (by rw [h]; decide)
  have hm : m.storage_type ≠ "mongo_collection" := fun h => hst (by rw [h]; decide)
  obtain ⟨q, hq⟩ := @deserialize_props_unknown reg _ _ hg hj hs hm hexp
  simp [model_to_entity, hq, bind, Except.bind, classMap, hst]

/-- Witness for C6 at a concrete unknown-variant model. -/
theorem C6_unknown_variant_witness :
    model_to_entity emptyRegistry 0 c6Model = .error (.keyError "kafka") :=
  C6_unknown_variant emptyRegistry 0 c6Model (by decide) (by rfl)

/-- C5 (confirmed): an edit without a (truthy) timestamp converts without
a fatal error in both directions — each direction emits the `job_ids`
deprecation diagnostic and stamps the edit with the conversion-time
clock — while an edit carrying a datetime timestamp serializes to its
ISO string, and one carrying an ISO string parses back, with no
diagnostic. -/
theorem C5_legacy_edit_migration (now : Nat) (d : Dict) (t : Nat) :
    ((d.getd "timestamp").truthy = false →
      serialize_edits now [d] =
        .ok ([d.insert "timestamp" (.pstr (isoformat now))], [deprJobIdsWarn]) ∧
      deserialize_edits now [d] =
        .ok ([d.insert "timestamp" (.ptime now)], [deprJobIdsWarn])) ∧
    (d.getd "timestamp" = .ptime t →
      serialize_edits now [d] =
        .ok ([d.insert "timestamp" (.pstr (isoformat t))], [])) ∧
    (d.getd "timestamp" = .pstr (isoformat t) →
      deserialize_edits now [d] =
        .ok ([d.insert "timestamp" (.ptime t)], [])) := by
  refine ⟨fun h => ⟨?_, ?_⟩, fun h => ?_, fun h => ?_⟩
  · simp [serialize_edits, h, bind, Except.bind]
  · simp [deserialize_edits, deserialize_edit_timestamp, h, bind, Except.bind]
  · simp [serialize_edits, h, PVal.truthy, bind, Except.bind]
  · have hne : (isoformat t == "") = false :=
      beq_eq_false_iff_ne.mpr (isoformat_ne_empty t)
    simp [deserialize_edits, deserialize_edit_timestamp, h, PVal.truthy, hne,
      fromisoformat_isoformat, bind, Except.bind]

/-- Witness for C5 at a concrete job-reference-only edit. -/
theorem C5_legacy_edit_migration_witness :
    (c5Edit.getd "timestamp").truthy = false ∧
    serialize_edits 11 [c5Edit] =
      .ok ([c5Edit.insert "timestamp" (.pstr (isoformat 11))], [deprJobIdsWarn]) ∧
    deserialize_edits 11 [c5Edit] =
      .ok ([c5Edit.insert "timestamp" (.ptime 11)], [deprJobIdsWarn]) ∧
    serialize_edits 11 [c5Edit.insert "timestamp" (.ptime 3)] =
      .ok ([(c5Edit.insert "timestamp" (.ptime 3)).insert "timestamp"
        (.pstr (isoformat 3))], []) := by
  have h0 : (c5Edit.getd "timestamp").truthy = false := by rfl
  have h1 := (C5_legacy_edit_migration 11 c5Edit 3).1 h0
  have h2 := (C5_legacy_edit_migration 11 (c5Edit.insert "timestamp" (.ptime 3)) 3).2.1
    (by rfl)
  exact ⟨h0, h1.1, h1.2, h2⟩

/-- C3 (corrected), counterexample: a zero `timedelta` is falsy in
Python, so an entity whose validity period is `timedelta(0)` — non-null —
serializes to a model whose `validity_days`/`validity_seconds` are both
null, refuting the claimed "non-null iff non-null" equivalence. -/
theorem C3_counterexample_zero_validity :
    entity_to_model 0 zeroValidityEntity = .ok (zeroValidityModel, []) ∧
    zeroValidityEntity.validity_period ≠ none ∧
    zeroValidityModel.validity_days = none ∧
    zeroValidityModel.validity_seconds = none := by
  refine ⟨?_, by simp [zeroValidityEntity], rfl, rfl⟩
  simp [entity_to_model, zeroValidityEntity, zeroValidityModel,
    serialize_data_node_properties, serialize_edits, bind, Except.bind,
    Finmap.hasKey, tdTruthy]

/-- C3 (amended): the model's validity components are both non-null iff
the entity's validity period is non-null *and nonzero* (a zero period is
falsy and maps to null); and when the period is a nonzero whole number of
seconds, the duration `_model_to_entity` reconstructs equals the
original (a sub-second component would be dropped by the
days/seconds-only serialization). -/
theorem C3_validity_roundtrip_amended (reg : Registry) (now now2 : Nat)
    {dn : DataNode} {m : DataNodeModel} {ws : List Warn}
    (h : entity_to_model now dn = .ok (m, ws)) :
    ((m.validity_days ≠ none ∧ m.validity_seconds ≠ none) ↔
      ∃ t, dn.validity_period = some t ∧ t ≠ 0) ∧
    (∀ t, dn.validity_period = some t → t ≠ 0 → t % 1000000 = 0 →
      ∀ {dn' : DataNode} {ws2 : List Warn},
        model_to_entity reg now2 m = .ok (dn', ws2) →
        dn'.validity_period = some t) := by
  obtain ⟨-, -, -, -, -, -, -, -, -, hvd, hvs, -⟩ := entity_to_model_ok_common h
  constructor
  · rw [hvd, hvs]
    cases hvp : dn.validity_period with
    | none => simp [validityOut]
    | some t =>
      by_cases ht : t = 0
      · subst ht; simp [validityOut, tdTruthy]
      · simp [validityOut, tdTruthy, ht]
  · intro t hvp ht hmod dn' ws2 hb
    obtain ⟨-, -, -, -, -, -, -, -, hvp', -⟩ := model_to_entity_ok_common hb
    rw [hvp', hvs, hvd, hvp]
    simp [validityOut, validityIn, tdTruthy, ht, mkTimedelta_days_seconds hmod]

/-- Witness for the amended C3 at a concrete 3-second validity period. -/
theorem C3_validity_roundtrip_witness :
    ((wholeValidityModel.validity_days ≠ none ∧
      wholeValidityModel.validity_seconds ≠ none) ↔
      ∃ t, wholeValidityEntity.validity_period = some t ∧ t ≠ 0) ∧
    (∀ t, wholeValidityEntity.validity_period = some t → t ≠ 0 →
      t % 1000000 = 0 →
      ∀ {dn' : DataNode} {ws2 : List Warn},
        model_to_entity emptyRegistry 9 wholeValidityModel = .ok (dn', ws2) →
        dn'.validity_period = some t) :=
  C3_validity_roundtrip_amended emptyRegistry 5 9
    (show entity_to_model 5 wholeValidityEntity = .ok (wholeValidityModel, []) by
      simp [entity_to_model, wholeValidityEntity, wholeValidityModel,
        serialize_data_node_properties, serialize_edits, bind, Except.bind,
        Finmap.hasKey, tdTruthy, tdDays, tdSeconds, usPerDay, usPerSec])

/-- C1 (corrected), counterexample: a known-variant entity (mongo
collection) with all edits timestamped (it has none) whose validity
period is `timedelta(0)` does not round-trip to an equal entity: the
falsy zero period is serialized to null and lost. -/
theorem C1_counterexample_zero_validity :
    c1ZeroEntity.storage_type ∈ ["generic", "json", "sql", "mongo_collection"] ∧
    c1ZeroEntity.edits = [] ∧
    entity_to_model 7 c1ZeroEntity = .ok (c1ZeroModel, []) ∧
    model_to_entity emptyRegistry 9 c1ZeroModel = .ok (c1ZeroRoundtrip, []) ∧
    c1ZeroRoundtrip ≠ c1ZeroEntity := by
  refine ⟨by decide, rfl, ?_, ?_, by decide⟩
  · simp [entity_to_model, c1ZeroEntity, c1ZeroModel,
      serialize_data_node_properties,
      serialize_mongo_collection_dn_model_properties, serialize_edits,
      bind, Except.bind, Finmap.hasKey, tdTruthy]
  · simp [model_to_entity, c1ZeroEntity, c1ZeroModel, c1ZeroRoundtrip,
      deserialize_data_node_properties,
      deserialize_mongo_collection_dn_model_properties, deserialize_edits,
      bind, Except.bind, Finmap.hasKey, classMap, knownStorageTypes,
      migrateEntity]

theorem cell_roundtrip {reg : Registry} {c : ExpoCell}
    (h : cellRoundtrippable reg c = true) :
    ∃ c', serialize_exposed_cell c = .ok c' ∧
      deserialize_exposed_cell reg c' = .ok c := by
  match c, h with
  | .cstr s, h =>
    simp only [cellRoundtrippable, decide_eq_true_eq] at h
    exact ⟨.cstr s, by simp [serialize_exposed_cell, h],
      by simp [deserialize_exposed_cell, h]⟩
  | .cobj o, h =>
    simp only [cellRoundtrippable, Bool.and_eq_true, beq_iff_eq,
      Bool.not_eq_true', decide_eq_false_iff_not] at h
    refine ⟨.cstr (fqn o), rfl, ?_⟩
    simp [deserialize_exposed_cell, h.1, h.2]

theorem entries_roundtrip {reg : Registry} {l : List (String × ExpoCell)}
    (h : (l.all fun kv => cellRoundtrippable reg kv.2) = true) :
    ∃ l', serialize_exposed_entries l = .ok l' ∧
      deserialize_exposed_entries reg l' = .ok l := by
  induction l with
  | nil => exact ⟨[], rfl, rfl⟩
  | cons kv rest ih =>
    simp only [List.all_cons, Bool.and_eq_true] at h
    obtain ⟨l', hs, hd⟩ := ih h.2
    obtain ⟨c', hcs, hcd⟩ := cell_roundtrip h.1
    obtain ⟨k, c⟩ := kv
    exact ⟨(k, c') :: l',
      by simp [serialize_exposed_entries, hcs, hs, bind, Except.bind],
      by simp [deserialize_exposed_entries, hcd, hd, bind, Except.bind]⟩

theorem cells_roundtrip {reg : Registry} {l : List ExpoCell}
    (h : (l.all (cellRoundtrippable reg)) = true) :
    ∃ l', serialize_exposed_cells l = .ok l' ∧
      deserialize_exposed_cells reg l' = .ok l := by
  induction l with
  | nil => exact ⟨[], rfl, rfl⟩
  | cons c rest ih =>
    simp only [List.all_cons, Bool.and_eq_true] at h
    obtain ⟨l', hs, hd⟩ := ih h.2
    obtain ⟨c', hcs, hcd⟩ := cell_roundtrip h.1
    exact ⟨c' :: l',
      by simp [serialize_exposed_cells, hcs, hs, bind, Except.bind],
      by simp [deserialize_exposed_cells, hcd, hd, bind, Except.bind]⟩

/-- C4 (confirmed): the `exposed_type` property round-trips through
conversion — a whitelisted token is kept as-is by `_entity_to_model` and
passed through unchanged by `_model_to_entity`'s whitelist guard; an
arbitrary type serializes to its fully-qualified name and is resolved
back to the same type by the locator; and the same holds value-wise for
mapping and element-wise for sequence shapes (the `if` below is exactly
the model-side guard of lines 268–281). -/
theorem C4_exposed_type_roundtrip (reg : Registry) (v : PVal)
    (h : exposedRoundtrippable reg v = true) :
    ∃ v', serialize_exposed_type v = .ok v' ∧
      (if isValidExposed v' then .ok v'
       else deserialize_exposed_type reg v') = .ok v := by
  match v, h with
  | .pstr s, h =>
    simp only [exposedRoundtrippable, decide_eq_true_eq] at h
    exact ⟨.pstr s, rfl, by simp [isValidExposed, h]⟩
  | .pobj o, h =>
    simp only [exposedRoundtrippable, cellRoundtrippable, Bool.and_eq_true,
      beq_iff_eq, Bool.not_eq_true', decide_eq_false_iff_not] at h
    refine ⟨.pstr (fqn o), rfl, ?_⟩
    simp [isValidExposed, h.1, h.2, deserialize_exposed_type]
  | .pdict entries, h =>
    simp only [exposedRoundtrippable] at h
    obtain ⟨l', hs, hd⟩ := entries_roundtrip h
    exact ⟨.pdict l',
      by simp [serialize_exposed_type, hs, bind, Except.bind],
      by simp [isValidExposed, deserialize_exposed_type, hd, bind, Except.bind]⟩
  | .plist cells, h =>
    simp only [exposedRoundtrippable] at h
    obtain ⟨l', hs, hd⟩ := cells_roundtrip h
    exact ⟨.plist l',
      by simp [serialize_exposed_type, hs, bind, Except.bind],
      by simp [isValidExposed, deserialize_exposed_type, hd, bind, Except.bind]⟩

/-- Witness for C4 at a concrete mapping-shaped exposed type. -/
theorem C4_exposed_type_roundtrip_witness :
    ∃ v', serialize_exposed_type c4Value = .ok v' ∧
      (if isValidExposed v' then .ok v'
       else deserialize_exposed_type c4Registry v') = .ok c4Value :=
  C4_exposed_type_roundtrip c4Registry c4Value (by decide)

/-- A successfully deserialized timestamp is always a datetime, and the
value it replaces never was one. -/
theorem deserialize_edit_timestamp_shape {now : Nat} {v ts : PVal}
    {w : List Warn} (h : deserialize_edit_timestamp now v = .ok (ts, w)) :
    (∃ t, ts = .ptime t) ∧ ∀ t, v ≠ .ptime t := by
  unfold deserialize_edit_timestamp at h
  by_cases hv : v.truthy = true
  · rw [if_pos hv] at h
    match v, h with
    | .pstr s, h =>
      cases hfs : fromisoformat s with
      | some t =>
        simp only [hfs, Except.ok.injEq, Prod.mk.injEq] at h
        obtain ⟨hts, -⟩ := h
        subst hts
        exact ⟨⟨t, rfl⟩, fun t' => by simp⟩
      | none => simp only [hfs] at h; cases h
    | .pbool b, h => cases h
    | .pobj o, h => cases h
    | .ptime t, h => cases h
    | .pdict l, h => cases h
    | .plist l, h => cases h
    | .pother n, h => cases h
  · rw [if_neg hv] at h
    cases h
    refine ⟨⟨now, rfl⟩, fun t hv' => ?_⟩
    subst hv'
    simp [PVal.truthy] at hv

/-- `_deserialize_edits` leaves dicts that `model.edits` does not
reference untouched. -/
theorem deserialize_edits_in_place_frame {now : Nat} {refs : List Nat}
    {h h' : EditHeap} {ws : List Warn}
    (hok : deserialize_edits_in_place now refs h = .ok (h', ws)) :
    ∀ i, i ∉ refs → h'.get? i = h.get? i := by
  induction refs generalizing h ws with
  | nil => cases hok; exact fun i _ => rfl
  | cons r rest ih =>
    intro i hi
    simp only [List.mem_cons, not_or] at hi
    simp only [deserialize_edits_in_place, bind, Except.bind] at hok
    split at hok
    · cases hok
    · split at hok
      · cases hok
      · cases hok
        next hrec =>
          rw [ih hrec i hi.2, List.get?_set_ne _ _ (fun he => hi.1 he.symm)]

/-- C10 (confirmed): `_model_to_entity` mutates its input model's edit
records in place. `copy(model.edits)` (`pyListCopy`) copies only the list
of dict references, so after `_deserialize_edits` runs, every edit dict
reachable from `model.edits` has had its `"timestamp"` value replaced (an
ISO string becomes a parsed datetime; a missing one becomes the current
time), and each such dict differs from its pre-call value — the input
model is not left unchanged. -/
theorem C10_edits_mutated (now : Nat) (refs : List Nat)
    (h h' : EditHeap) (ws : List Warn)
    (hok : deserialize_edits_in_place now (pyListCopy refs) h = .ok (h', ws))
    (hnd : refs.Nodup) (hlt : ∀ r ∈ refs, r < h.length) :
    ∀ r ∈ refs, ∃ ts w,
      deserialize_edit_timestamp now (((h.get? r).getD ∅).getd "timestamp") =
        .ok (ts, w) ∧
      h'.get? r = some (((h.get? r).getD ∅).insert "timestamp" ts) ∧
      h'.get? r ≠ h.get? r := by
  induction refs generalizing h ws with
  | nil => intro r hr; cases hr
  | cons r0 rest ih =>
    have hnd0 : r0 ∉ rest := (List.nodup_cons.mp hnd).1
    have hndr : rest.Nodup := (List.nodup_cons.mp hnd).2
    simp only [pyListCopy, deserialize_edits_in_place, bind, Except.bind] at hok
    cases hts : deserialize_edit_timestamp now
        (((h.get? r0).getD ∅).getd "timestamp") with
    | error e => simp only [hts] at hok; cases hok
    | ok tsw =>
      simp only [hts] at hok
      cases hrec : deserialize_edits_in_place now rest
          (h.set r0 (((h.get? r0).getD ∅).insert "timestamp" tsw.1)) with
      | error e => simp only [hrec] at hok; cases hok
      | ok hw =>
        simp only [hrec] at hok
        cases hok
        intro r hr
        have hlen0 : r0 < h.length := hlt r0 (List.mem_cons_self r0 rest)
        rcases List.mem_cons.mp hr with hr0 | hrest
        · subst hr0
          obtain ⟨⟨t, htt⟩, hnott⟩ :=
            deserialize_edit_timestamp_shape hts
          refine ⟨tsw.1, tsw.2, hts, ?_, ?_⟩
          · rw [deserialize_edits_in_place_frame hrec r hnd0,
              List.get?_set_eq_of_lt _ hlen0]
          · rw [deserialize_edits_in_place_frame hrec r hnd0,
              List.get?_set_eq_of_lt _ hlen0]
            cases hget : h.get? r with
            | none => simp
            | some d0 =>
              intro heq
              injection heq with heq
              have hl : d0.lookup "timestamp" = some (.ptime t) := by
                conv_lhs => rw [← heq]
                rw [htt, Finmap.lookup_insert]
              have hget' : h[r]? = some d0 := by
                rw [← List.get?_eq_getElem?]; exact hget
              have : ((h.get? r).getD ∅).getd "timestamp" = .ptime t := by
                simp [Finmap.getd, hget', hl]
              exact hnott t this
        · have hlt' : ∀ x ∈ rest, x <
              (h.set r0 (((h.get? r0).getD ∅).insert "timestamp" tsw.1)).length := by
            intro x hx
            rw [List.length_set]
            exact hlt x (List.mem_cons_of_mem r0 hx)
          have hne : r ≠ r0 := fun he => hnd0 (he ▸ hrest)
          obtain ⟨ts, w, h1, h2, h3⟩ := ih _ hw.2 hrec hndr hlt' r hrest
          rw [List.get?_set_ne _ _ (fun he => hne he.symm)] at h1 h2 h3
          exact ⟨ts, w, h1, h2, h3⟩

/-- Witness for C10 on a concrete two-edit heap: both referenced edit
dicts are mutated in place. -/
theorem C10_witness :
    (∃ ts w,
      deserialize_edit_timestamp 9 (((c10Heap.get? 0).getD ∅).getd "timestamp") =
        .ok (ts, w) ∧
      c10HeapAfter.get? 0 =
        some (((c10Heap.get? 0).getD ∅).insert "timestamp" ts) ∧
      c10HeapAfter.get? 0 ≠ c10Heap.get? 0) ∧
    (∃ ts w,
      deserialize_edit_timestamp 9 (((c10Heap.get? 1).getD ∅).getd "timestamp") =
        .ok (ts, w) ∧
      c10HeapAfter.get? 1 =
        some (((c10Heap.get? 1).getD ∅).insert "timestamp" ts) ∧
      c10HeapAfter.get? 1 ≠ c10Heap.get? 1) := by
  have h := C10_edits_mutated 9 [0, 1] c10Heap c10HeapAfter [deprJobIdsWarn]
    (by simp [deserialize_edits_in_place, deserialize_edit_timestamp,
      pyListCopy, c10Heap, c10HeapAfter, c5Edit, PVal.truthy,
      beq_eq_false_iff_ne.mpr (isoformat_ne_empty 4),
      fromisoformat_isoformat, bind, Except.bind, Finmap.getd])
    (by decide) (by decide)
  exact ⟨h 0 (by decide), h 1 (by decide)⟩

theorem edits_roundtrip (now1 now2 : Nat) {l : List Dict}
    (h : l.all editOk = true) :
    ∃ l1 w1, serialize_edits now1 l = .ok (l1, w1) ∧
      deserialize_edits now2 l1 = .ok (l.map (fillEdit now1), []) := by
  induction l with
  | nil => exact ⟨[], [], rfl, rfl⟩
  | cons d rest ih =>
    simp only [List.all_cons, Bool.and_eq_true] at h
    obtain ⟨l1, w1, hs, hd⟩ := ih h.2
    have hne : ∀ t : Nat, ((isoformat t : String) == "") = false :=
      fun t => beq_eq_false_iff_ne.mpr (isoformat_ne_empty t)
    by_cases htr : (d.getd "timestamp").truthy
    · have hts : ∃ t, d.getd "timestamp" = .ptime t := by
        unfold editOk at h
        rw [if_pos htr] at h
        match hv : d.getd "timestamp", h.1 with
        | .ptime t, _ => exact ⟨t, rfl⟩
      obtain ⟨t, ht⟩ := hts
      have hlk : d.lookup "timestamp" = some (.ptime t) := by
        by_cases hsome : (d.lookup "timestamp").isSome
        · obtain ⟨v, hv⟩ := Option.isSome_iff_exists.mp hsome
          rw [hv]
          rw [show v = .ptime t from by
            have := ht
            simp only [Finmap.getd, hv, Option.getD_some] at this
            exact this]
        · exfalso
          rw [Option.not_isSome_iff_eq_none] at hsome
          simp [Finmap.getd, hsome] at ht
      have hdet : deserialize_edit_timestamp now2 (.pstr (isoformat t)) =
          .ok (.ptime t, []) := by
        simp [deserialize_edit_timestamp, PVal.truthy, hne t,
          fromisoformat_isoformat]
      refine ⟨d.insert "timestamp" (.pstr (isoformat t)) :: l1, w1, ?_, ?_⟩
      · simp [serialize_edits, htr, ht, hs, PVal.truthy, bind, Except.bind]
      · have hgv : (d.insert "timestamp" (.pstr (isoformat t))).getd "timestamp" =
            .pstr (isoformat t) := by simp
        simp only [deserialize_edits, hgv, hdet, hd, bind, Except.bind,
          exceptBind_ok]
        rw [Finmap.insert_insert, dict_insert_self hlk]
        simp [fillEdit, htr, List.map_cons]
    · have hdet : deserialize_edit_timestamp now2 (.pstr (isoformat now1)) =
          .ok (.ptime now1, []) := by
        simp [deserialize_edit_timestamp, PVal.truthy, hne now1,
          fromisoformat_isoformat]
      refine ⟨d.insert "timestamp" (.pstr (isoformat now1)) :: l1,
        deprJobIdsWarn :: w1, ?_, ?_⟩
      · simp [serialize_edits, htr, hs, bind, Except.bind]
      · have hgv : (d.insert "timestamp" (.pstr (isoformat now1))).getd "timestamp" =
            .pstr (isoformat now1) := by simp
        simp only [deserialize_edits, hgv, hdet, hd, bind, Except.bind,
          exceptBind_ok]
        rw [Finmap.insert_insert]
        simp [fillEdit, htr, List.map_cons]

theorem loadInvOpt_some {reg : Registry} {o : Option PVal}
    (h : loadInvOpt reg o = true) : ∃ v, o = some v ∧ loadInv reg v = true := by
  cases o with
  | none => cases h
  | some v => exact ⟨v, rfl, h⟩

theorem loadInv_cases {reg : Registry} {v : PVal} (h : loadInv reg v = true) :
    v = .pnone ∨ ∃ o, v = .pobj o ∧ (o.mod == "") = false ∧
      reg.loadFct o.mod o.name = some o := by
  match v, h with
  | .pnone, _ => exact Or.inl rfl
  | .pobj o, h =>
    simp only [loadInv, Bool.and_eq_true, Bool.not_eq_true', beq_iff_eq] at h
    exact Or.inr ⟨o, rfl, by simp [h.1], h.2⟩

theorem attr_of_loadInv {reg : Registry} {v : PVal}
    (h : loadInv reg v = true) :
    attrName v = .ok (nameOpt v) ∧ attrModule v = .ok (modOpt v) := by
  rcases loadInv_cases h with rfl | ⟨o, rfl, hm, -⟩
  · exact ⟨rfl, rfl⟩
  · constructor <;> simp [attrName, attrModule, nameOpt, modOpt, PVal.truthy]

theorem generic_net {p : Dict} {vr vw : PVal} (nr mr nw mw : PVal)
    (hvr : p.lookup READ_FCT_KEY = some vr)
    (hvw : p.lookup WRITE_FCT_KEY = some vw)
    (h3 : p.lookup READ_FCT_NAME_KEY = none)
    (h4 : p.lookup READ_FCT_MODULE_KEY = none)
    (h5 : p.lookup WRITE_FCT_NAME_KEY = none)
    (h6 : p.lookup WRITE_FCT_MODULE_KEY = none) :
    ((((((((((((p.insert READ_FCT_NAME_KEY nr).insert READ_FCT_MODULE_KEY
      mr).insert WRITE_FCT_NAME_KEY nw).insert WRITE_FCT_MODULE_KEY mw).erase
      READ_FCT_KEY).erase WRITE_FCT_KEY).insert READ_FCT_KEY vr).insert
      WRITE_FCT_KEY vw).erase READ_FCT_NAME_KEY).erase
      READ_FCT_MODULE_KEY).erase WRITE_FCT_NAME_KEY).erase
      WRITE_FCT_MODULE_KEY) = p := by
  simp only [READ_FCT_KEY, WRITE_FCT_KEY, READ_FCT_NAME_KEY,
    READ_FCT_MODULE_KEY, WRITE_FCT_NAME_KEY, WRITE_FCT_MODULE_KEY] at *
  apply Finmap.ext_lookup
  intro x
  by_cases e1 : x = "read_fct_name"
  · subst e1
    simp [Finmap.lookup_erase, Finmap.lookup_erase_ne, h3]
  · by_cases e2 : x = "read_fct_module"
    · subst e2
      simp [Finmap.lookup_erase, Finmap.lookup_erase_ne, h4]
    · by_cases e3 : x = "write_fct_name"
      · subst e3
        simp [Finmap.lookup_erase, Finmap.lookup_erase_ne, h5]
      · by_cases e4 : x = "write_fct_module"
        · subst e4
          simp [Finmap.lookup_erase, Finmap.lookup_erase_ne, h6]
        · rw [Finmap.lookup_erase_ne e4, Finmap.lookup_erase_ne e3,
            Finmap.lookup_erase_ne e2, Finmap.lookup_erase_ne e1]
          by_cases e5 : x = "write_fct"
          · subst e5
            rw [Finmap.lookup_insert, hvw]
          · rw [Finmap.lookup_insert_of_ne _ e5]
            by_cases e6 : x = "read_fct"
            · subst e6
              rw [Finmap.lookup_insert, hvr]
            · rw [Finmap.lookup_insert_of_ne _ e6,
                Finmap.lookup_erase_ne e5, Finmap.lookup_erase_ne e6,
                Finmap.lookup_insert_of_ne _ e4,
                Finmap.lookup_insert_of_ne _ e3,
                Finmap.lookup_insert_of_ne _ e2,
                Finmap.lookup_insert_of_ne _ e1]

theorem generic_netx {p : Dict} {vr vw : PVal} (nr mr nw mw v' : PVal)
    (hvr : p.lookup READ_FCT_KEY = some vr)
    (hvw : p.lookup WRITE_FCT_KEY = some vw)
    (h3 : p.lookup READ_FCT_NAME_KEY = none)
    (h4 : p.lookup READ_FCT_MODULE_KEY = none)
    (h5 : p.lookup WRITE_FCT_NAME_KEY = none)
    (h6 : p.lookup WRITE_FCT_MODULE_KEY = none) (x : String) :
    (((((((((((((p.insert READ_FCT_NAME_KEY nr).insert READ_FCT_MODULE_KEY
      mr).insert WRITE_FCT_NAME_KEY nw).insert WRITE_FCT_MODULE_KEY mw).erase
      READ_FCT_KEY).erase WRITE_FCT_KEY).insert EXPOSED_TYPE_KEY v').insert
      READ_FCT_KEY vr).insert WRITE_FCT_KEY vw).erase
      READ_FCT_NAME_KEY).erase READ_FCT_MODULE_KEY).erase
      WRITE_FCT_NAME_KEY).erase WRITE_FCT_MODULE_KEY).lookup x =
      if x = EXPOSED_TYPE_KEY then some v' else p.lookup x := by
  simp only [READ_FCT_KEY, WRITE_FCT_KEY, READ_FCT_NAME_KEY,
    READ_FCT_MODULE_KEY, WRITE_FCT_NAME_KEY, WRITE_FCT_MODULE_KEY,
    EXPOSED_TYPE_KEY] at *
  by_cases e1 : x = "read_fct_name"
  · subst e1
    simp [Finmap.lookup_erase, Finmap.lookup_erase_ne, h3]
  · by_cases e2 : x = "read_fct_module"
    · subst e2
      simp [Finmap.lookup_erase, Finmap.lookup_erase_ne, h4]
    · by_cases e3 : x = "write_fct_name"
      · subst e3
        simp [Finmap.lookup_erase, Finmap.lookup_erase_ne, h5]
      · by_cases e4 : x = "write_fct_module"
        · subst e4
          simp [Finmap.lookup_erase, Finmap.lookup_erase_ne, h6]
        · rw [Finmap.lookup_erase_ne e4, Finmap.lookup_erase_ne e3,
            Finmap.lookup_erase_ne e2, Finmap.lookup_erase_ne e1]
          by_cases e5 : x = "write_fct"
          · subst e5
            simp [Finmap.lookup_insert, hvw]
          · rw [Finmap.lookup_insert_of_ne _ e5]
            by_cases e6 : x = "read_fct"
            · subst e6
              simp [Finmap.lookup_insert, hvr]
            · rw [Finmap.lookup_insert_of_ne _ e6]
              by_cases e7 : x = "exposed_type"
              · subst e7
                simp [Finmap.lookup_insert]
              · rw [Finmap.lookup_insert_of_ne _ e7,
                  Finmap.lookup_erase_ne e5, Finmap.lookup_erase_ne e6,
                  Finmap.lookup_insert_of_ne _ e4,
                  Finmap.lookup_insert_of_ne _ e3,
                  Finmap.lookup_insert_of_ne _ e2,
                  Finmap.lookup_insert_of_ne _ e1, if_neg e7]

theorem json_netx {p : Dict} {ve vd : PVal} (ne' me nd md v' : PVal)
    (hve : p.lookup ENCODER_KEY = some ve)
    (hvd : p.lookup DECODER_KEY = some vd)
    (h3 : p.lookup JSON_ENCODER_NAME_KEY = none)
    (h4 : p.lookup JSON_ENCODER_MODULE_KEY = none)
    (h5 : p.lookup JSON_DECODER_NAME_KEY = none)
    (h6 : p.lookup JSON_DECODER_MODULE_KEY = none) (x : String) :
    (((((((((((((p.insert JSON_ENCODER_NAME_KEY ne').insert
      JSON_ENCODER_MODULE_KEY me).erase ENCODER_KEY).insert
      JSON_DECODER_NAME_KEY nd).insert JSON_DECODER_MODULE_KEY md).erase
      DECODER_KEY).insert EXPOSED_TYPE_KEY v').insert ENCODER_KEY
      ve).insert DECODER_KEY vd).erase JSON_ENCODER_NAME_KEY).erase
      JSON_ENCODER_MODULE_KEY).erase JSON_DECODER_NAME_KEY).erase
      JSON_DECODER_MODULE_KEY).lookup x =
      if x = EXPOSED_TYPE_KEY then some v' else p.lookup x := by
  simp only [ENCODER_KEY, DECODER_KEY, JSON_ENCODER_NAME_KEY,
    JSON_ENCODER_MODULE_KEY, JSON_DECODER_NAME_KEY, JSON_DECODER_MODULE_KEY,
    EXPOSED_TYPE_KEY] at *
  by_cases e1 : x = "encoder_name"
  · subst e1; simp [Finmap.lookup_erase, Finmap.lookup_erase_ne, h3]
  · by_cases e2 : x = "encoder_module"
    · subst e2; simp [Finmap.lookup_erase, Finmap.lookup_erase_ne, h4]
    · by_cases e3 : x = "decoder_name"
      · subst e3; simp [Finmap.lookup_erase, Finmap.lookup_erase_ne, h5]
      · by_cases e4 : x = "decoder_module"
        · subst e4; simp [Finmap.lookup_erase, Finmap.lookup_erase_ne, h6]
        · rw [Finmap.lookup_erase_ne e4, Finmap.lookup_erase_ne e3,
            Finmap.lookup_erase_ne e2, Finmap.lookup_erase_ne e1]
          by_cases e5 : x = "decoder"
          · subst e5; simp [Finmap.lookup_insert, hvd]
          · rw [Finmap.lookup_insert_of_ne _ e5]
            by_cases e6 : x = "encoder"
            · subst e6; simp [Finmap.lookup_insert, hve]
            · rw [Finmap.lookup_insert_of_ne _ e6]
              by_cases e7 : x = "exposed_type"
              · subst e7; simp [Finmap.lookup_insert]
              · rw [Finmap.lookup_insert_of_ne _ e7,
                  Finmap.lookup_erase_ne e5,
                  Finmap.lookup_insert_of_ne _ e4,
                  Finmap.lookup_insert_of_ne _ e3,
                  Finmap.lookup_erase_ne e6,
                  Finmap.lookup_insert_of_ne _ e2,
                  Finmap.lookup_insert_of_ne _ e1, if_neg e7]

theorem sql_netx {p : Dict} {v : PVal} (nv mv v' : PVal)
    (hv : p.lookup WRITE_QUERY_BUILDER_KEY = some v)
    (h3 : p.lookup WRITE_QUERY_BUILDER_NAME_KEY = none)
    (h4 : p.lookup WRITE_QUERY_BUILDER_MODULE_KEY = none) (x : String) :
    (((((((p.insert WRITE_QUERY_BUILDER_NAME_KEY nv).insert
      WRITE_QUERY_BUILDER_MODULE_KEY mv).erase
      WRITE_QUERY_BUILDER_KEY).insert EXPOSED_TYPE_KEY v').insert
      WRITE_QUERY_BUILDER_KEY v).erase
      WRITE_QUERY_BUILDER_NAME_KEY).erase
      WRITE_QUERY_BUILDER_MODULE_KEY).lookup x =
      if x = EXPOSED_TYPE_KEY then some v' else p.lookup x := by
  simp only [WRITE_QUERY_BUILDER_KEY, WRITE_QUERY_BUILDER_NAME_KEY,
    WRITE_QUERY_BUILDER_MODULE_KEY, EXPOSED_TYPE_KEY] at *
  by_cases e1 : x = "write_query_builder_name"
  · subst e1; simp [Finmap.lookup_erase, Finmap.lookup_erase_ne, h3]
  · by_cases e2 : x = "write_query_builder_module"
    · subst e2; simp [Finmap.lookup_erase, Finmap.lookup_erase_ne, h4]
    · rw [Finmap.lookup_erase_ne e2, Finmap.lookup_erase_ne e1]
      by_cases e3 : x = "write_query_builder"
      · subst e3; simp [Finmap.lookup_insert, hv]
      · rw [Finmap.lookup_insert_of_ne _ e3]
        by_cases e4 : x = "exposed_type"
        · subst e4; simp [Finmap.lookup_insert]
        · rw [Finmap.lookup_insert_of_ne _ e4, Finmap.lookup_erase_ne e3,
            Finmap.lookup_insert_of_ne _ e2,
            Finmap.lookup_insert_of_ne _ e1, if_neg e4]

theorem generic_netx_dict {p : Dict} {vr vw : PVal} (nr mr nw mw v' : PVal)
    (hvr : p.lookup READ_FCT_KEY = some vr)
    (hvw : p.lookup WRITE_FCT_KEY = some vw)
    (h3 : p.lookup READ_FCT_NAME_KEY = none)
    (h4 : p.lookup READ_FCT_MODULE_KEY = none)
    (h5 : p.lookup WRITE_FCT_NAME_KEY = none)
    (h6 : p.lookup WRITE_FCT_MODULE_KEY = none) :
    (((((((((((((p.insert READ_FCT_NAME_KEY nr).insert READ_FCT_MODULE_KEY
      mr).insert WRITE_FCT_NAME_KEY nw).insert WRITE_FCT_MODULE_KEY mw).erase
      READ_FCT_KEY).erase WRITE_FCT_KEY).insert EXPOSED_TYPE_KEY v').insert
      READ_FCT_KEY vr).insert WRITE_FCT_KEY vw).erase
      READ_FCT_NAME_KEY).erase READ_FCT_MODULE_KEY).erase
      WRITE_FCT_NAME_KEY).erase WRITE_FCT_MODULE_KEY) =
      p.insert EXPOSED_TYPE_KEY v' := by
  apply Finmap.ext_lookup
  intro x
  rw [generic_netx nr mr nw mw v' hvr hvw h3 h4 h5 h6 x]
  by_cases hx : x = EXPOSED_TYPE_KEY
  · subst hx; rw [Finmap.lookup_insert, if_pos rfl]
  · rw [Finmap.lookup_insert_of_ne _ hx, if_neg hx]

theorem json_netx_dict {p : Dict} {ve vd : PVal} (ne' me nd md v' : PVal)
    (hve : p.lookup ENCODER_KEY = some ve)
    (hvd : p.lookup DECODER_KEY = some vd)
    (h3 : p.lookup JSON_ENCODER_NAME_KEY = none)
    (h4 : p.lookup JSON_ENCODER_MODULE_KEY = none)
    (h5 : p.lookup JSON_DECODER_NAME_KEY = none)
    (h6 : p.lookup JSON_DECODER_MODULE_KEY = none) :
    (((((((((((((p.insert JSON_ENCODER_NAME_KEY ne').insert
      JSON_ENCODER_MODULE_KEY me).erase ENCODER_KEY).insert
      JSON_DECODER_NAME_KEY nd).insert JSON_DECODER_MODULE_KEY md).erase
      DECODER_KEY).insert EXPOSED_TYPE_KEY v').insert ENCODER_KEY
      ve).insert DECODER_KEY vd).erase JSON_ENCODER_NAME_KEY).erase
      JSON_ENCODER_MODULE_KEY).erase JSON_DECODER_NAME_KEY).erase
      JSON_DECODER_MODULE_KEY) = p.insert EXPOSED_TYPE_KEY v' := by
  apply Finmap.ext_lookup
  intro x
  rw [json_netx ne' me nd md v' hve hvd h3 h4 h5 h6 x]
  by_cases hx : x = EXPOSED_TYPE_KEY
  · subst hx; rw [Finmap.lookup_insert, if_pos rfl]
  · rw [Finmap.lookup_insert_of_ne _ hx, if_neg hx]

theorem sql_netx_dict {p : Dict} {v : PVal} (nv mv v' : PVal)
    (hv : p.lookup WRITE_QUERY_BUILDER_KEY = some v)
    (h3 : p.lookup WRITE_QUERY_BUILDER_NAME_KEY = none)
    (h4 : p.lookup WRITE_QUERY_BUILDER_MODULE_KEY = none) :
    (((((((p.insert WRITE_QUERY_BUILDER_NAME_KEY nv).insert
      WRITE_QUERY_BUILDER_MODULE_KEY mv).erase
      WRITE_QUERY_BUILDER_KEY).insert EXPOSED_TYPE_KEY v').insert
      WRITE_QUERY_BUILDER_KEY v).erase
      WRITE_QUERY_BUILDER_NAME_KEY).erase
      WRITE_QUERY_BUILDER_MODULE_KEY) = p.insert EXPOSED_TYPE_KEY v' := by
  apply Finmap.ext_lookup
  intro x
  rw [sql_netx nv mv v' hv h3 h4 x]
  by_cases hx : x = EXPOSED_TYPE_KEY
  · subst hx; rw [Finmap.lookup_insert, if_pos rfl]
  · rw [Finmap.lookup_insert_of_ne _ hx, if_neg hx]

theorem generic_props_roundtrip {reg : Registry} {p : Dict}
    (h : genericPropsOk reg p = true) :
    ∃ q, serialize_generic_dn_properties p = .ok q ∧
      deserialize_generic_dn_properties reg q = .ok p ∧
      q.lookup EXPOSED_TYPE_KEY = p.lookup EXPOSED_TYPE_KEY ∧
      ∀ v', deserialize_generic_dn_properties reg
        (q.insert EXPOSED_TYPE_KEY v') = .ok (p.insert EXPOSED_TYPE_KEY v') := by
  simp only [genericPropsOk, Bool.and_eq_true, and_assoc,
    Option.isNone_iff_eq_none] at h
  obtain ⟨h1, h2, h3, h4, h5, h6⟩ := h
  obtain ⟨vr, hvr, hlr⟩ := loadInvOpt_some h1
  obtain ⟨vw, hvw, hlw⟩ := loadInvOpt_some h2
  obtain ⟨hanr, hamr⟩ := attr_of_loadInv hlr
  obtain ⟨hanw, hamw⟩ := attr_of_loadInv hlw
  have hno : ∀ v : PVal, optStr (nameOpt v) = nameOf v := by
    intro v; cases v <;> rfl
  have hmo : ∀ v : PVal, optStr (modOpt v) = modOf v := by
    intro v; cases v <;> rfl
  refine ⟨((((((p.insert READ_FCT_NAME_KEY (nameOf vr)).insert
    READ_FCT_MODULE_KEY (modOf vr)).insert WRITE_FCT_NAME_KEY
    (nameOf vw)).insert WRITE_FCT_MODULE_KEY (modOf vw)).erase
    READ_FCT_KEY).erase WRITE_FCT_KEY), ?_, ?_, ?_, ?_⟩
  · simp only [serialize_generic_dn_properties, bind, Except.bind,
      Finmap.getd, READ_FCT_KEY, WRITE_FCT_KEY, READ_FCT_NAME_KEY,
      READ_FCT_MODULE_KEY, WRITE_FCT_NAME_KEY, WRITE_FCT_MODULE_KEY] at *
    simp [hvr, hvw, hanr, hamr, hanw, hamw, hno, hmo, delItem,
      Finmap.lookup_insert, Finmap.lookup_insert_of_ne,
      Finmap.lookup_erase_ne, bind, Except.bind]
  · rcases loadInv_cases hlr with rfl | ⟨or, rfl, hmr, hfr⟩ <;>
      rcases loadInv_cases hlw with rfl | ⟨ow, rfl, hmw, hfw⟩ <;>
    · simp [deserialize_generic_dn_properties, getItem, delItem, load_fct,
        nameOf, modOf, PVal.truthy, bind, Except.bind,
        READ_FCT_KEY, WRITE_FCT_KEY, READ_FCT_NAME_KEY, READ_FCT_MODULE_KEY,
        WRITE_FCT_NAME_KEY, WRITE_FCT_MODULE_KEY,
        Finmap.lookup_insert, Finmap.lookup_insert_of_ne,
        Finmap.lookup_erase_ne, Finmap.lookup_erase, *]
      exact generic_net _ _ _ _ hvr hvw h3 h4 h5 h6
  · simp [EXPOSED_TYPE_KEY, READ_FCT_KEY, WRITE_FCT_KEY, READ_FCT_NAME_KEY,
      READ_FCT_MODULE_KEY, WRITE_FCT_NAME_KEY, WRITE_FCT_MODULE_KEY,
      Finmap.lookup_erase_ne, Finmap.lookup_insert_of_ne]
  · intro v'
    rcases loadInv_cases hlr with rfl | ⟨or, rfl, hmr, hfr⟩ <;>
      rcases loadInv_cases hlw with rfl | ⟨ow, rfl, hmw, hfw⟩ <;>
    · simp [deserialize_generic_dn_properties, getItem, delItem, load_fct,
        nameOf, modOf, PVal.truthy, bind, Except.bind,
        READ_FCT_KEY, WRITE_FCT_KEY, READ_FCT_NAME_KEY, READ_FCT_MODULE_KEY,
        WRITE_FCT_NAME_KEY, WRITE_FCT_MODULE_KEY, EXPOSED_TYPE_KEY,
        Finmap.lookup_insert, Finmap.lookup_insert_of_ne,
        Finmap.lookup_erase_ne, Finmap.lookup_erase, *]
      exact generic_netx_dict _ _ _ _ _ hvr hvw h3 h4 h5 h6

theorem json_net {p : Dict} {ve vd : PVal} (ne' me nd md : PVal)
    (hve : p.lookup ENCODER_KEY = some ve)
    (hvd : p.lookup DECODER_KEY = some vd)
    (h3 : p.lookup JSON_ENCODER_NAME_KEY = none)
    (h4 : p.lookup JSON_ENCODER_MODULE_KEY = none)
    (h5 : p.lookup JSON_DECODER_NAME_KEY = none)
    (h6 : p.lookup JSON_DECODER_MODULE_KEY = none) :
    ((((((((((((p.insert JSON_ENCODER_NAME_KEY ne').insert
      JSON_ENCODER_MODULE_KEY me).erase ENCODER_KEY).insert
      JSON_DECODER_NAME_KEY nd).insert JSON_DECODER_MODULE_KEY md).erase
      DECODER_KEY).insert ENCODER_KEY ve).insert DECODER_KEY vd).erase
      JSON_ENCODER_NAME_KEY).erase JSON_ENCODER_MODULE_KEY).erase
      JSON_DECODER_NAME_KEY).erase JSON_DECODER_MODULE_KEY) = p := by
  simp only [ENCODER_KEY, DECODER_KEY, JSON_ENCODER_NAME_KEY,
    JSON_ENCODER_MODULE_KEY, JSON_DECODER_NAME_KEY,
    JSON_DECODER_MODULE_KEY] at *
  apply Finmap.ext_lookup
  intro x
  by_cases e1 : x = "encoder_name"
  · subst e1; simp [Finmap.lookup_erase, Finmap.lookup_erase_ne, h3]
  · by_cases e2 : x = "encoder_module"
    · subst e2; simp [Finmap.lookup_erase, Finmap.lookup_erase_ne, h4]
    · by_cases e3 : x = "decoder_name"
      · subst e3; simp [Finmap.lookup_erase, Finmap.lookup_erase_ne, h5]
      · by_cases e4 : x = "decoder_module"
        · subst e4; simp [Finmap.lookup_erase, Finmap.lookup_erase_ne, h6]
        · rw [Finmap.lookup_erase_ne e4, Finmap.lookup_erase_ne e3,
            Finmap.lookup_erase_ne e2, Finmap.lookup_erase_ne e1]
          by_cases e5 : x = "decoder"
          · subst e5; rw [Finmap.lookup_insert, hvd]
          · rw [Finmap.lookup_insert_of_ne _ e5]
            by_cases e6 : x = "encoder"
            · subst e6; rw [Finmap.lookup_insert, hve]
            · rw [Finmap.lookup_insert_of_ne _ e6,
                Finmap.lookup_erase_ne e5,
                Finmap.lookup_insert_of_ne _ e4,
                Finmap.lookup_insert_of_ne _ e3,
                Finmap.lookup_erase_ne e6,
                Finmap.lookup_insert_of_ne _ e2,
                Finmap.lookup_insert_of_ne _ e1]

theorem json_props_roundtrip {reg : Registry} {p : Dict}
    (h : jsonPropsOk reg p = true) :
    ∃ q, serialize_json_dn_properties p = .ok q ∧
      deserialize_json_dn_properties reg q = .ok p ∧
      q.lookup EXPOSED_TYPE_KEY = p.lookup EXPOSED_TYPE_KEY ∧
      ∀ v', deserialize_json_dn_properties reg
        (q.insert EXPOSED_TYPE_KEY v') = .ok (p.insert EXPOSED_TYPE_KEY v') := by
  simp only [jsonPropsOk, Bool.and_eq_true, and_assoc,
    Option.isNone_iff_eq_none] at h
  obtain ⟨h1, h2, h3, h4, h5, h6⟩ := h
  obtain ⟨ve, hve, hle⟩ := loadInvOpt_some h1
  obtain ⟨vd, hvd, hld⟩ := loadInvOpt_some h2
  obtain ⟨hane, hame⟩ := attr_of_loadInv hle
  obtain ⟨hand, hamd⟩ := attr_of_loadInv hld
  have hno : ∀ v : PVal, optStr (nameOpt v) = nameOf v := by
    intro v; cases v <;> rfl
  have hmo : ∀ v : PVal, optStr (modOpt v) = modOf v := by
    intro v; cases v <;> rfl
  refine ⟨((((((p.insert JSON_ENCODER_NAME_KEY (nameOf ve)).insert
    JSON_ENCODER_MODULE_KEY (modOf ve)).erase ENCODER_KEY).insert
    JSON_DECODER_NAME_KEY (nameOf vd)).insert JSON_DECODER_MODULE_KEY
    (modOf vd)).erase DECODER_KEY), ?_, ?_, ?_, ?_⟩
  · simp only [serialize_json_dn_properties, bind, Except.bind,
      Finmap.getd, ENCODER_KEY, DECODER_KEY, JSON_ENCODER_NAME_KEY,
      JSON_ENCODER_MODULE_KEY, JSON_DECODER_NAME_KEY,
      JSON_DECODER_MODULE_KEY] at *
    simp [hve, hvd, hane, hame, hand, hamd, hno, hmo,
      Finmap.lookup_insert, Finmap.lookup_insert_of_ne,
      Finmap.lookup_erase_ne, bind, Except.bind]
  · rcases loadInv_cases hle with rfl | ⟨oe, rfl, hme, hfe⟩ <;>
      rcases loadInv_cases hld with rfl | ⟨od, rfl, hmd, hfd⟩ <;>
    · simp [deserialize_json_dn_properties, getItem, delItem, load_fct,
        nameOf, modOf, PVal.truthy, bind, Except.bind,
        ENCODER_KEY, DECODER_KEY, JSON_ENCODER_NAME_KEY,
        JSON_ENCODER_MODULE_KEY, JSON_DECODER_NAME_KEY,
        JSON_DECODER_MODULE_KEY,
        Finmap.lookup_insert, Finmap.lookup_insert_of_ne,
        Finmap.lookup_erase_ne, Finmap.lookup_erase, *]
      exact json_net _ _ _ _ hve hvd h3 h4 h5 h6
  · simp [EXPOSED_TYPE_KEY, ENCODER_KEY, DECODER_KEY, JSON_ENCODER_NAME_KEY,
      JSON_ENCODER_MODULE_KEY, JSON_DECODER_NAME_KEY, JSON_DECODER_MODULE_KEY,
      Finmap.lookup_erase_ne, Finmap.lookup_insert_of_ne]
  · intro v'
    rcases loadInv_cases hle with rfl | ⟨oe, rfl, hme, hfe⟩ <;>
      rcases loadInv_cases hld with rfl | ⟨od, rfl, hmd, hfd⟩ <;>
    · simp [deserialize_json_dn_properties, getItem, delItem, load_fct,
        nameOf, modOf, PVal.truthy, bind, Except.bind,
        ENCODER_KEY, DECODER_KEY, JSON_ENCODER_NAME_KEY,
        JSON_ENCODER_MODULE_KEY, JSON_DECODER_NAME_KEY,
        JSON_DECODER_MODULE_KEY, EXPOSED_TYPE_KEY,
        Finmap.lookup_insert, Finmap.lookup_insert_of_ne,
        Finmap.lookup_erase_ne, Finmap.lookup_erase, *]
      exact json_netx_dict _ _ _ _ _ hve hvd h3 h4 h5 h6

theorem sql_net {p : Dict} {v : PVal} (nv mv : PVal)
    (hv : p.lookup WRITE_QUERY_BUILDER_KEY = some v)
    (h3 : p.lookup WRITE_QUERY_BUILDER_NAME_KEY = none)
    (h4 : p.lookup WRITE_QUERY_BUILDER_MODULE_KEY = none) :
    ((((((p.insert WRITE_QUERY_BUILDER_NAME_KEY nv).insert
      WRITE_QUERY_BUILDER_MODULE_KEY mv).erase
      WRITE_QUERY_BUILDER_KEY).insert WRITE_QUERY_BUILDER_KEY v).erase
      WRITE_QUERY_BUILDER_NAME_KEY).erase
      WRITE_QUERY_BUILDER_MODULE_KEY) = p := by
  simp only [WRITE_QUERY_BUILDER_KEY, WRITE_QUERY_BUILDER_NAME_KEY,
    WRITE_QUERY_BUILDER_MODULE_KEY] at *
  apply Finmap.ext_lookup
  intro x
  by_cases e1 : x = "write_query_builder_name"
  · subst e1; simp [Finmap.lookup_erase, Finmap.lookup_erase_ne, h3]
  · by_cases e2 : x = "write_query_builder_module"
    · subst e2; simp [Finmap.lookup_erase, Finmap.lookup_erase_ne, h4]
    · rw [Finmap.lookup_erase_ne e2, Finmap.lookup_erase_ne e1]
      by_cases e3 : x = "write_query_builder"
      · subst e3; rw [Finmap.lookup_insert, hv]
      · rw [Finmap.lookup_insert_of_ne _ e3, Finmap.lookup_erase_ne e3,
          Finmap.lookup_insert_of_ne _ e2, Finmap.lookup_insert_of_ne _ e1]

theorem sql_props_roundtrip {reg : Registry} {p : Dict}
    (h : sqlPropsOk reg p = true) :
    ∃ q, serialize_sql_dn_properties p = .ok q ∧
      deserialize_sql_dn_model_properties reg q = .ok p ∧
      q.lookup EXPOSED_TYPE_KEY = p.lookup EXPOSED_TYPE_KEY ∧
      ∀ v', deserialize_sql_dn_model_properties reg
        (q.insert EXPOSED_TYPE_KEY v') = .ok (p.insert EXPOSED_TYPE_KEY v') := by
  simp only [sqlPropsOk, Bool.and_eq_true, and_assoc,
    Option.isNone_iff_eq_none] at h
  obtain ⟨h1, h3, h4⟩ := h
  obtain ⟨v, hv, hl⟩ := loadInvOpt_some h1
  obtain ⟨han, ham⟩ := attr_of_loadInv hl
  have hno : ∀ w : PVal, optStr (nameOpt w) = nameOf w := by
    intro w; cases w <;> rfl
  have hmo : ∀ w : PVal, optStr (modOpt w) = modOf w := by
    intro w; cases w <;> rfl
  refine ⟨(((p.insert WRITE_QUERY_BUILDER_NAME_KEY (nameOf v)).insert
    WRITE_QUERY_BUILDER_MODULE_KEY (modOf v)).erase
    WRITE_QUERY_BUILDER_KEY), ?_, ?_, ?_, ?_⟩
  · simp only [serialize_sql_dn_properties, bind, Except.bind,
      Finmap.getd, WRITE_QUERY_BUILDER_KEY, WRITE_QUERY_BUILDER_NAME_KEY,
      WRITE_QUERY_BUILDER_MODULE_KEY] at *
    simp [hv, han, ham, hno, hmo, bind, Except.bind]
  · rcases loadInv_cases hl with rfl | ⟨o, rfl, hm, hf⟩ <;>
    · simp [deserialize_sql_dn_model_properties, getItem, delItem,
        load_fct, nameOf, modOf, PVal.truthy, bind, Except.bind,
        WRITE_QUERY_BUILDER_KEY, WRITE_QUERY_BUILDER_NAME_KEY,
        WRITE_QUERY_BUILDER_MODULE_KEY,
        Finmap.lookup_insert, Finmap.lookup_insert_of_ne,
        Finmap.lookup_erase_ne, Finmap.lookup_erase, *]
      exact sql_net _ _ hv h3 h4
  · simp [EXPOSED_TYPE_KEY, WRITE_QUERY_BUILDER_KEY,
      WRITE_QUERY_BUILDER_NAME_KEY, WRITE_QUERY_BUILDER_MODULE_KEY,
      Finmap.lookup_erase_ne, Finmap.lookup_insert_of_ne]
  · intro v'
    rcases loadInv_cases hl with rfl | ⟨o, rfl, hm, hf⟩ <;>
    · simp [deserialize_sql_dn_model_properties, getItem, delItem,
        load_fct, nameOf, modOf, PVal.truthy, bind, Except.bind,
        WRITE_QUERY_BUILDER_KEY, WRITE_QUERY_BUILDER_NAME_KEY,
        WRITE_QUERY_BUILDER_MODULE_KEY, EXPOSED_TYPE_KEY,
        Finmap.lookup_insert, Finmap.lookup_insert_of_ne,
        Finmap.lookup_erase_ne, Finmap.lookup_erase, *]
      exact sql_netx_dict _ _ _ hv h3 h4

theorem mongo_props_roundtrip {reg : Registry} {p : Dict}
    (h : mongoPropsOk reg p = true) :
    ∃ q, serialize_mongo_collection_dn_model_properties p = .ok q ∧
      deserialize_mongo_collection_dn_model_properties reg q = .ok p ∧
      q.lookup EXPOSED_TYPE_KEY = p.lookup EXPOSED_TYPE_KEY ∧
      ∀ w, deserialize_mongo_collection_dn_model_properties reg
        (q.insert EXPOSED_TYPE_KEY w) = .ok (p.insert EXPOSED_TYPE_KEY w) := by
  unfold mongoPropsOk at h
  cases hl : p.lookup CUSTOM_DOCUMENT_KEY with
  | none =>
    have hl' : Finmap.lookup "custom_document" p = none := hl
    refine ⟨p, ?_, ?_, rfl, fun w => ?_⟩ <;>
      simp [serialize_mongo_collection_dn_model_properties,
        deserialize_mongo_collection_dn_model_properties,
        Finmap.hasKey, CUSTOM_DOCUMENT_KEY, EXPOSED_TYPE_KEY,
        Finmap.lookup_insert_of_ne, hl']
  | some v =>
    rw [hl] at h
    match v, h with
    | .pobj o, h =>
      simp only [beq_iff_eq] at h
      refine ⟨p.insert CUSTOM_DOCUMENT_KEY (.pstr (fqn o)), ?_, ?_, ?_,
        fun w => ?_⟩
      · simp [serialize_mongo_collection_dn_model_properties,
          Finmap.hasKey, Finmap.getd, hl]
      · simp only [deserialize_mongo_collection_dn_model_properties,
          Finmap.hasKey, Finmap.getd, Finmap.lookup_insert,
          Option.isSome_some, Option.getD_some, if_true, h]
        rw [Finmap.insert_insert, dict_insert_self hl]
      · simp [EXPOSED_TYPE_KEY, CUSTOM_DOCUMENT_KEY,
          Finmap.lookup_insert_of_ne]
      · have hcd : ((p.insert CUSTOM_DOCUMENT_KEY
            (.pstr (fqn o))).insert EXPOSED_TYPE_KEY w).getd
            CUSTOM_DOCUMENT_KEY = .pstr (fqn o) := by
          simp [Finmap.getd, CUSTOM_DOCUMENT_KEY, EXPOSED_TYPE_KEY,
            Finmap.lookup_insert, Finmap.lookup_insert_of_ne]
        simp only [deserialize_mongo_collection_dn_model_properties,
          Finmap.hasKey, hcd, Finmap.getd]
        have hk : (((p.insert CUSTOM_DOCUMENT_KEY
            (.pstr (fqn o))).insert EXPOSED_TYPE_KEY w).lookup
            CUSTOM_DOCUMENT_KEY).isSome = true := by
          simp [CUSTOM_DOCUMENT_KEY, EXPOSED_TYPE_KEY,
            Finmap.lookup_insert, Finmap.lookup_insert_of_ne]
        rw [if_pos hk]
        have hgd2 : (((p.insert CUSTOM_DOCUMENT_KEY
            (.pstr (fqn o))).insert EXPOSED_TYPE_KEY w).lookup
            CUSTOM_DOCUMENT_KEY).getD PVal.pnone = .pstr (fqn o) := by
          simp [CUSTOM_DOCUMENT_KEY, EXPOSED_TYPE_KEY,
            Finmap.lookup_insert, Finmap.lookup_insert_of_ne]
        rw [hgd2]
        simp only [h]
        rw [Finmap.insert_insert_of_ne _
          (show EXPOSED_TYPE_KEY ≠ CUSTOM_DOCUMENT_KEY by decide),
          Finmap.insert_insert, dict_insert_self hl]

theorem exposed_ser_deser {reg : Registry} {v : PVal}
    (h : exposedRoundtrippable reg v = true) :
    ∃ v', serialize_exposed_type v = .ok v' ∧
      ((isValidExposed v' = true ∧ v' = v) ∨
       (isValidExposed v' = false ∧
        deserialize_exposed_type reg v' = .ok v)) := by
  match v, h with
  | .pstr s, h =>
    simp only [exposedRoundtrippable, decide_eq_true_eq] at h
    exact ⟨.pstr s, rfl, Or.inl ⟨by simp [isValidExposed, h], rfl⟩⟩
  | .pobj o, h =>
    simp only [exposedRoundtrippable, cellRoundtrippable, Bool.and_eq_true,
      beq_iff_eq, Bool.not_eq_true', decide_eq_false_iff_not] at h
    exact ⟨.pstr (fqn o), rfl, Or.inr ⟨by simp [isValidExposed, h.2],
      by simp [deserialize_exposed_type, h.1]⟩⟩
  | .pdict entries, h =>
    simp only [exposedRoundtrippable] at h
    obtain ⟨l', hs, hd⟩ := entries_roundtrip h
    exact ⟨.pdict l',
      by simp [serialize_exposed_type, hs, bind, Except.bind],
      Or.inr ⟨rfl,
        by simp [deserialize_exposed_type, hd, bind, Except.bind]⟩⟩
  | .plist cells, h =>
    simp only [exposedRoundtrippable] at h
    obtain ⟨l', hs, hd⟩ := cells_roundtrip h
    exact ⟨.plist l',
      by simp [serialize_exposed_type, hs, bind, Except.bind],
      Or.inr ⟨rfl,
        by simp [deserialize_exposed_type, hd, bind, Except.bind]⟩⟩

theorem props_pipeline_roundtrip {reg : Registry} {st : String} {p : Dict}
    (h : propsOk reg st p = true) :
    ∃ P, serialize_data_node_properties st p = .ok P ∧
      deserialize_data_node_properties reg st P = .ok p := by
  simp only [propsOk, Bool.and_eq_true] at h
  obtain ⟨hvar, hexp⟩ := h
  by_cases hg : st = "generic"
  · subst hg
    simp only [beq_self_eq_true, if_true] at hvar
    obtain ⟨q, hserq, hdeserq, hqx, hcomm⟩ := generic_props_roundtrip hvar
    cases hEX : p.lookup EXPOSED_TYPE_KEY with
    | none =>
      refine ⟨q, ?_, ?_⟩
      · simp [serialize_data_node_properties, hserq, bind, Except.bind,
          Finmap.hasKey, hqx, hEX]
      · simp [deserialize_data_node_properties, hdeserq, bind, Except.bind,
          Finmap.hasKey, hEX]
    | some v =>
      rw [hEX] at hexp
      obtain ⟨v', hsv, hdisj⟩ := exposed_ser_deser hexp
      refine ⟨q.insert EXPOSED_TYPE_KEY v', ?_, ?_⟩
      · simp [serialize_data_node_properties, hserq, bind, Except.bind,
          Finmap.hasKey, Finmap.getd, hqx, hEX, hsv]
      · rcases hdisj with ⟨hval, rfl⟩ | ⟨hnval, hdv⟩
        · simp [deserialize_data_node_properties, hcomm v', bind,
            Except.bind, Finmap.hasKey, Finmap.getd, Finmap.lookup_insert,
            hEX, hval, dict_insert_self hEX]
        · simp [deserialize_data_node_properties, hcomm v', bind,
            Except.bind, Finmap.hasKey, Finmap.getd, Finmap.lookup_insert,
            hEX, hnval, hdv, Finmap.insert_insert, dict_insert_self hEX]
  · by_cases hj : st = "json"
    · subst hj
      simp only [beq_self_eq_true, if_true, show (("json" : String) == "generic") = false from rfl,
        Bool.false_eq_true, if_false] at hvar
      obtain ⟨q, hserq, hdeserq, hqx, hcomm⟩ := json_props_roundtrip hvar
      cases hEX : p.lookup EXPOSED_TYPE_KEY with
      | none =>
        refine ⟨q, ?_, ?_⟩
        · simp [serialize_data_node_properties, hserq, bind, Except.bind,
            Finmap.hasKey, hqx, hEX]
        · simp [deserialize_data_node_properties, hdeserq, bind,
            Except.bind, Finmap.hasKey, hEX]
      | some v =>
        rw [hEX] at hexp
        obtain ⟨v', hsv, hdisj⟩ := exposed_ser_deser hexp
        refine ⟨q.insert EXPOSED_TYPE_KEY v', ?_, ?_⟩
        · simp [serialize_data_node_properties, hserq, bind, Except.bind,
            Finmap.hasKey, Finmap.getd, hqx, hEX, hsv]
        · rcases hdisj with ⟨hval, rfl⟩ | ⟨hnval, hdv⟩
          · simp [deserialize_data_node_properties, hcomm v', bind,
              Except.bind, Finmap.hasKey, Finmap.getd,
              Finmap.lookup_insert, hEX, hval, dict_insert_self hEX]
          · simp [deserialize_data_node_properties, hcomm v', bind,
              Except.bind, Finmap.hasKey, Finmap.getd,
              Finmap.lookup_insert, hEX, hnval, hdv, Finmap.insert_insert,
              dict_insert_self hEX]
    · by_cases hsq : st = "sql"
      · subst hsq
        simp only [beq_self_eq_true, if_true,
          show (("sql" : String) == "generic") = false from rfl,
          show (("sql" : String) == "json") = false from rfl,
          Bool.false_eq_true, if_false] at hvar
        obtain ⟨q, hserq, hdeserq, hqx, hcomm⟩ := sql_props_roundtrip hvar
        cases hEX : p.lookup EXPOSED_TYPE_KEY with
        | none =>
          refine ⟨q, ?_, ?_⟩
          · simp [serialize_data_node_properties, hserq, bind, Except.bind,
              Finmap.hasKey, hqx, hEX]
          · simp [deserialize_data_node_properties, hdeserq, bind,
              Except.bind, Finmap.hasKey, hEX]
        | some v =>
          rw [hEX] at hexp
          obtain ⟨v', hsv, hdisj⟩ := exposed_ser_deser hexp
          refine ⟨q.insert EXPOSED_TYPE_KEY v', ?_, ?_⟩
          · simp [serialize_data_node_properties, hserq, bind, Except.bind,
              Finmap.hasKey, Finmap.getd, hqx, hEX, hsv]
          · rcases hdisj with ⟨hval, rfl⟩ | ⟨hnval, hdv⟩
            · simp [deserialize_data_node_properties, hcomm v', bind,
                Except.bind, Finmap.hasKey, Finmap.getd,
                Finmap.lookup_insert, hEX, hval, dict_insert_self hEX]
            · simp [deserialize_data_node_properties, hcomm v', bind,
                Except.bind, Finmap.hasKey, Finmap.getd,
                Finmap.lookup_insert, hEX, hnval, hdv, Finmap.insert_insert,
                dict_insert_self hEX]
      · by_cases hmc : st = "mongo_collection"
        · subst hmc
          simp only [beq_self_eq_true, if_true,
            show (("mongo_collection" : String) == "generic") = false from rfl,
            show (("mongo_collection" : String) == "json") = false from rfl,
            show (("mongo_collection" : String) == "sql") = false from rfl,
            Bool.false_eq_true, if_false] at hvar
          obtain ⟨q, hserq, hdeserq, hqx, hcomm⟩ := mongo_props_roundtrip hvar
          cases hEX : p.lookup EXPOSED_TYPE_KEY with
          | none =>
            refine ⟨q, ?_, ?_⟩
            · simp [serialize_data_node_properties, hserq, bind,
                Except.bind, Finmap.hasKey, hqx, hEX]
            · simp [deserialize_data_node_properties, hdeserq, bind,
                Except.bind, Finmap.hasKey, hqx, hEX]
          | some v =>
            rw [hEX] at hexp
            obtain ⟨v', hsv, hdisj⟩ := exposed_ser_deser hexp
            refine ⟨q.insert EXPOSED_TYPE_KEY v', ?_, ?_⟩
            · simp [serialize_data_node_properties, hserq, bind,
                Except.bind, Finmap.hasKey, Finmap.getd, hqx, hEX, hsv]
            · rcases hdisj with ⟨hval, rfl⟩ | ⟨hnval, hdv⟩
              · simp [deserialize_data_node_properties, hcomm v', bind,
                  Except.bind, Finmap.hasKey, Finmap.getd,
                  Finmap.lookup_insert, hEX, hval, dict_insert_self hEX]
              · simp [deserialize_data_node_properties, hcomm v, bind,
                  Except.bind, Finmap.hasKey, Finmap.getd,
                  Finmap.lookup_insert, hEX, hnval, hdv, Finmap.insert_insert,
                  dict_insert_self hEX]
        · exfalso
          simp [hg, hj, hsq, hmc] at hvar

theorem classMap_known {st : String} (h : st ∈ knownStorageTypes) :
    classMap st = some (fun a =>
      { id := a.id, config_id := a.config_id, scope := a.scope,
        storage_type := st, name := a.name, owner_id := a.owner_id,
        parent_ids := a.parent_ids, last_edit_date := a.last_edit_date,
        edits := a.edits, version := a.version,
        validity_period := a.validity_period,
        edit_in_progress := a.edit_in_progress,
        properties := a.properties }) := by
  simp [classMap, h]

/-- C1 (corrected): for an entity of a known variant (generic, json, sql or
mongo_collection) whose property bag is representative (variant
callable/encoder/document keys round-trippable through the registry,
reserved serialized keys absent, any `exposed_type` a whitelisted token, a
resolvable type, or a mapping/sequence of those), whose edits carry
datetime timestamps when truthy, and whose validity period is absent or a
nonzero whole number of seconds, `_model_to_entity` after
`_entity_to_model` returns the original entity field for field — except
that edits lacking a truthy timestamp come back stamped with the
serialization-time clock (and, per the counterexample, a zero validity
period would be lost, which the hypotheses exclude). -/
theorem C1_roundtrip_amended {reg : Registry} {now1 now2 : Nat} {e : DataNode}
    (hst : e.storage_type = "generic" ∨ e.storage_type = "json" ∨
           e.storage_type = "sql" ∨ e.storage_type = "mongo_collection")
    (hprops : propsOk reg e.storage_type e.properties = true)
    (hedits : e.edits.all editOk = true)
    (hvp : e.validity_period = none ∨
           ∃ t, e.validity_period = some t ∧ t ≠ 0 ∧ t % 1000000 = 0) :
    ∃ m ws, entity_to_model now1 e = .ok (m, ws) ∧
      model_to_entity reg now2 m =
        .ok ({ e with edits := e.edits.map (fillEdit now1) }, []) := by
  obtain ⟨P, hPs, hPd⟩ := props_pipeline_roundtrip hprops
  obtain ⟨l1, w1, hes, hed⟩ := edits_roundtrip now1 now2 hedits
  have hstmem : e.storage_type ∈ knownStorageTypes := by
    rcases hst with h | h | h | h <;> simp [knownStorageTypes, h]
  refine
    ⟨{ id := e.id, config_id := e.config_id, scope := e.scope,
       storage_type := e.storage_type, name := e.name, owner_id := e.owner_id,
       parent_ids := e.parent_ids.sort (· ≤ ·),
       last_edit_date := e.last_edit_date.map isoformat,
       edits := l1, version := e.version,
       validity_days :=
         match e.validity_period with
         | some t => if tdTruthy t then some (tdDays t) else none
         | none => none,
       validity_seconds :=
         match e.validity_period with
         | some t => if tdTruthy t then some (tdSeconds t) else none
         | none => none,
       edit_in_progress := e.edit_in_progress,
       data_node_properties := P }, w1, ?_, ?_⟩
  · simp [entity_to_model, hPs, hes, bind, Except.bind]
  · have hne : ∀ t : Nat, ((isoformat t : String) == "") = false :=
      fun t => beq_eq_false_iff_ne.mpr (isoformat_ne_empty t)
    simp only [model_to_entity, bind, Except.bind, hPd,
      classMap_known hstmem, hed]
    rcases hvp with hv | ⟨t, hv, ht0, hmod⟩
    · cases hle : e.last_edit_date <;>
        simp [hv, hle, hne, fromisoformat_isoformat, migrateEntity,
          Finset.sort_toFinset, DataNode.mk.injEq]
    · cases hle : e.last_edit_date <;>
        simp [hv, hle, hne, fromisoformat_isoformat, migrateEntity,
          Finset.sort_toFinset, tdTruthy, ht0, mkTimedelta_days_seconds hmod,
          DataNode.mk.injEq]

/-- Witness for the amended round trip at `c1WitnessEntity`. -/
theorem C1_roundtrip_witness :
    ∃ m ws, entity_to_model 5 c1WitnessEntity = .ok (m, ws) ∧
      model_to_entity c1Registry 7 m =
        .ok ({ c1WitnessEntity with
               edits := c1WitnessEntity.edits.map (fillEdit 5) }, []) :=
  C1_roundtrip_amended (Or.inr (Or.inr (Or.inr rfl))) (by decide) (by decide)
    (Or.inr ⟨3000000, rfl, by decide, by decide⟩)

theorem repoLoadAll_length {reg : Registry} {now : Nat} {r : Repo}
    {dns : List DataNode} (h : repoLoadAll reg now r = .ok dns) :
    dns.length = r.length := by
  induction r generalizing dns with
  | nil => cases h; rfl
  | cons p rest ih =>
    simp only [repoLoadAll, bind, Except.bind] at h
    split at h
    · cases h
    · split at h
      · cases h
      · cases h
        simp [List.length_cons, ih (by assumption)]

theorem repoLoadAll_ids {reg : Registry} {now : Nat} {r : Repo}
    {dns : List DataNode} (h : repoLoadAll reg now r = .ok dns) :
    dns.map DataNode.id = r.map (fun p => p.2.id) := by
  induction r generalizing dns with
  | nil => cases h; rfl
  | cons p rest ih =>
    simp only [repoLoadAll, bind, Except.bind] at h
    split at h
    · cases h
    · split at h
      · cases h
      · rename_i hm _ _ hrest
        cases h
        obtain ⟨d, w⟩ := ‹DataNode × List Warn›
        simp [List.map_cons, ih hrest, (model_to_entity_ok_common hm).1]

theorem repoLoadAll_mem_ok {reg : Registry} {now : Nat} {r : Repo}
    {dns : List DataNode} (h : repoLoadAll reg now r = .ok dns) :
    ∀ p ∈ r, ∃ x, model_to_entity reg now p.2 = .ok x := by
  induction r generalizing dns with
  | nil => simp
  | cons q rest ih =>
    simp only [repoLoadAll, bind, Except.bind] at h
    split at h
    · cases h
    · split at h
      · cases h
      · rename_i hm _ _ hrest
        cases h
        intro p hp
        rcases List.mem_cons.mp hp with hp | hp
        · exact ⟨_, hp ▸ hm⟩
        · exact ih hrest p hp

theorem repoLoadAll_ok_of_mem {reg : Registry} {now : Nat} {r : Repo}
    (h : ∀ p ∈ r, ∃ x, model_to_entity reg now p.2 = .ok x) :
    ∃ dns, repoLoadAll reg now r = .ok dns := by
  induction r with
  | nil => exact ⟨[], rfl⟩
  | cons q rest ih =>
    obtain ⟨⟨dn, w⟩, hq⟩ := h q (List.mem_cons_self q rest)
    obtain ⟨dns, hrest⟩ := ih fun p hp => h p (List.mem_cons_of_mem q hp)
    exact ⟨dn :: dns, by simp [repoLoadAll, hq, hrest, bind, Except.bind]⟩

theorem repoSaveAll_keys {now : Nat} {r0 : Repo} {es : List DataNode} {r : Repo}
    (h : repoSaveAll now r0 es = .ok r)
    (hnew : ∀ dn ∈ es, dn.id ∉ r0.map Prod.fst)
    (hnd : (es.map DataNode.id).Nodup) :
    r.map Prod.fst = r0.map Prod.fst ++ es.map DataNode.id ∧
    ∀ p ∈ r, p ∈ r0 ∨ p.2.id = p.1 := by
  induction es generalizing r0 r with
  | nil =>
    cases h
    exact ⟨by simp, fun p hp => Or.inl hp⟩
  | cons dn rest ih =>
    simp only [repoSaveAll, repoSave, bind, Except.bind] at h
    split at h
    · cases h
    · rename_i r1 hr1
      split at hr1
      · cases hr1
      · rename_i x hx
        cases hr1
        obtain ⟨m, w⟩ := x
        have hid : m.id = dn.id := (entity_to_model_ok_common hx).1
        have hany : r0.any (fun p => p.1 == dn.id) = false := by
          rw [List.any_eq_false]
          intro p hp
          simp only [beq_iff_eq]
          intro hpe
          exact hnew dn (List.mem_cons_self dn rest)
            (hpe ▸ List.mem_map_of_mem Prod.fst hp)
        rw [show repoUpsert r0 dn.id m = r0 ++ [(dn.id, m)] from by
          simp [repoUpsert, hany]] at h
        simp only [List.map_cons, List.nodup_cons] at hnd
        have hnew' : ∀ d ∈ rest, d.id ∉ (r0 ++ [(dn.id, m)]).map Prod.fst := by
          intro d hd
          simp only [List.map_append, List.mem_append, List.map_cons,
            List.map_nil, List.mem_singleton, not_or]
          refine ⟨hnew d (List.mem_cons_of_mem dn hd), fun he => ?_⟩
          exact hnd.1 (he ▸ List.mem_map_of_mem DataNode.id hd)
        obtain ⟨h1, h2⟩ := ih h hnew' hnd.2
        refine ⟨by simp [h1], fun p hp => ?_⟩
        rcases h2 p hp with hp0 | hp0
        · rcases List.mem_append.mp hp0 with hp1 | hp1
          · exact Or.inl hp1
          · right
            rw [List.mem_singleton.mp hp1]
            exact hid
        · exact Or.inr hp0

theorem length_filter_ne_key {r : Repo} {i : String}
    (hnd : (r.map Prod.fst).Nodup) (hmem : i ∈ r.map Prod.fst) :
    (r.filter (fun p => !(p.1 == i))).length = r.length - 1 := by
  induction r with
  | nil => simp at hmem
  | cons q rest ih =>
    simp only [List.map_cons, List.nodup_cons] at hnd
    by_cases hq : q.1 = i
    · have hall : ∀ p ∈ rest, (!(p.1 == i)) = true := by
        intro p hp
        simp only [Bool.not_eq_true', beq_eq_false_iff_ne, ne_eq]
        intro hpe
        exact hnd.1 (hq ▸ hpe ▸ List.mem_map_of_mem Prod.fst hp)
      simp [List.filter_cons, hq, List.filter_eq_self.mpr hall]
    · have hmem' : i ∈ rest.map Prod.fst := by
        rcases List.mem_cons.mp hmem with h | h
        · exact absurd h.symm hq
        · exact h
      have hpos : 0 < rest.length := by
        rcases List.mem_map.mp hmem' with ⟨p, hp, -⟩
        exact List.length_pos.mpr (List.ne_nil_of_mem hp)
      rw [List.filter_cons_of_pos (by simp [hq])]
      simp only [List.length_cons, ih hnd.2 hmem']
      omega

theorem repoDeleteMany_length {r : Repo} {ids : List String}
    (hnd : (r.map Prod.fst).Nodup) (hidnd : ids.Nodup)
    (hsub : ∀ i ∈ ids, i ∈ r.map Prod.fst) :
    (repoDeleteMany r ids).length = r.length - ids.length := by
  induction ids generalizing r with
  | nil => simp [repoDeleteMany]
  | cons i is ih =>
    simp only [List.nodup_cons] at hidnd
    have hstep : repoDeleteMany r (i :: is) =
        repoDeleteMany (r.filter (fun p => !(p.1 == i))) is := by
      simp only [repoDeleteMany, List.filter_filter]
      apply List.filter_congr
      intro p hp
      cases h1 : (p.1 == i) <;> cases h2 : is.contains p.1 <;>
        simp only [List.contains_cons, h1, h2, Bool.false_or, Bool.true_or,
          Bool.or_false, Bool.or_true, Bool.not_true, Bool.not_false,
          Bool.and_true, Bool.and_false, Bool.true_and, Bool.false_and]
    have hsubl : List.Sublist (r.filter (fun p => !(p.1 == i))) r :=
      List.filter_sublist r
    have hnd' : ((r.filter (fun p => !(p.1 == i))).map Prod.fst).Nodup :=
      (hsubl.map Prod.fst).nodup hnd
    have hsub' : ∀ j ∈ is, j ∈ (r.filter (fun p => !(p.1 == i))).map Prod.fst := by
      intro j hj
      obtain ⟨p, hp, hpj⟩ := List.mem_map.mp (hsub j (List.mem_cons_of_mem i hj))
      refine List.mem_map.mpr ⟨p, List.mem_filter.mpr ⟨hp, ?_⟩, hpj⟩
      simp only [Bool.not_eq_true', beq_eq_false_iff_ne, ne_eq, hpj]
      intro hji
      exact hidnd.1 (hji ▸ hj)
    have hpos : 0 < r.length := by
      rcases List.mem_map.mp (hsub i (List.mem_cons_self i is)) with ⟨p, hp, -⟩
      exact List.length_pos.mpr (List.ne_nil_of_mem hp)
    rw [hstep, ih hnd' hidnd.2 hsub',
      length_filter_ne_key hnd (hsub i (List.mem_cons_self i is))]
    simp only [List.length_cons]
    omega

/-- C7: for either repository backend (the Backend contract makes the
façade behave identically over the modelled store), after saving N
entities with distinct identifiers into an empty repository, `load_all`
returns exactly N entities; after `delete_many` on K of those
identifiers, `load_all` returns exactly N − K entities, none of whose
identifiers is among the deleted ones. -/
theorem C7_cardinality {reg : Registry} {now1 now2 : Nat}
    {es : List DataNode} {r : Repo} {dns : List DataNode} {ids : List String}
    (hnd : (es.map DataNode.id).Nodup)
    (hsave : repoSaveAll now1 [] es = .ok r)
    (hload : repoLoadAll reg now2 r = .ok dns)
    (hidnd : ids.Nodup)
    (hsub : ∀ i ∈ ids, i ∈ r.map Prod.fst) :
    dns.length = es.length ∧
    ∃ dns', repoLoadAll reg now2 (repoDeleteMany r ids) = .ok dns' ∧
      dns'.length = es.length - ids.length ∧
      ∀ dn ∈ dns', dn.id ∉ ids := by
  obtain ⟨hkeys, hcons⟩ := repoSaveAll_keys hsave (by simp) hnd
  simp only [List.map_nil, List.nil_append] at hkeys
  have hrlen : r.length = es.length := by
    have h := congrArg List.length hkeys
    simpa using h
  have h1 : dns.length = es.length := by rw [repoLoadAll_length hload, hrlen]
  have hok' : ∀ p ∈ repoDeleteMany r ids,
      ∃ x, model_to_entity reg now2 p.2 = .ok x := by
    intro p hp
    exact repoLoadAll_mem_ok hload p (List.mem_of_mem_filter hp)
  obtain ⟨dns', hload'⟩ := repoLoadAll_ok_of_mem hok'
  have hndkeys : (r.map Prod.fst).Nodup := hkeys ▸ hnd
  have hlen' : dns'.length = es.length - ids.length := by
    rw [repoLoadAll_length hload',
      repoDeleteMany_length hndkeys hidnd hsub, hrlen]
  refine ⟨h1, dns', hload', hlen', fun dn hdn hmemids => ?_⟩
  have hmm : dn.id ∈ (repoDeleteMany r ids).map (fun p => p.2.id) := by
    rw [← repoLoadAll_ids hload']
    exact List.mem_map_of_mem DataNode.id hdn
  obtain ⟨p, hp, hpid⟩ := List.mem_map.mp hmm
  have hpf := List.mem_filter.mp hp
  have hpcons : p.2.id = p.1 := by
    rcases hcons p hpf.1 with h0 | h0
    · simp at h0
    · exact h0
  have hnotin : p.1 ∉ ids := by simpa using hpf.2
  apply hnotin
  rw [← hpcons, hpid]
  exact hmemids

theorem c7_save_eq : repoSaveAll 0 [] c7Es = .ok c7Repo := by
  simp [c7Es, c7Repo, c7Entity, c7Model, repoSaveAll, repoSave, repoUpsert,
    entity_to_model, serialize_data_node_properties, serialize_edits,
    bind, Except.bind, Finmap.hasKey, Finset.sort_empty]

theorem c7_load_eq : repoLoadAll emptyRegistry 1 c7Repo = .ok c7Es := by
  simp [c7Es, c7Repo, c7Entity, c7Model, repoLoadAll, model_to_entity,
    deserialize_data_node_properties, deserialize_edits, migrateEntity,
    classMap, knownStorageTypes, bind, Except.bind, Finmap.hasKey,
    List.toFinset_nil]

/-- Witness for C7: the concrete scenario — ten entities with ids
`data_node-0..9`, delete the first three loaded, seven disjoint ones
remain. -/
theorem C7_cardinality_witness :
    (c7Es.map DataNode.id).Nodup ∧
    repoSaveAll 0 [] c7Es = .ok c7Repo ∧
    repoLoadAll emptyRegistry 1 c7Repo = .ok c7Es ∧
    c7Es.length = 10 ∧
    ∃ dns', repoLoadAll emptyRegistry 1 (repoDeleteMany c7Repo c7DelIds) =
        .ok dns' ∧
      dns'.length = 7 ∧ ∀ dn ∈ dns', dn.id ∉ c7DelIds := by
  have h := @C7_cardinality emptyRegistry 0 1 c7Es c7Repo c7Es c7DelIds
    (by decide) c7_save_eq c7_load_eq (by decide) (by decide)
  obtain ⟨dns', hl, hlen, hdisj⟩ := h.2
  exact ⟨by decide, c7_save_eq, c7_load_eq, by decide,
    dns', hl, by rw [hlen]; decide, hdisj⟩

theorem nodeField_eq_modelField {reg : Registry} {now : Nat}
    {m : DataNodeModel} {dn : DataNode} {w : List Warn}
    (h : model_to_entity reg now m = .ok (dn, w)) (field : String) :
    nodeField dn field = modelField m field := by
  obtain ⟨h1, h2, -, h4, h5, h6, -, h8, -, -⟩ := model_to_entity_ok_common h
  simp [nodeField, modelField, h1, h2, h4, h5, h6, h8]

/-- C8: `search(field, value)` returns an entity whose given field equals
`value` whenever at least one persisted model matches, and fails with the
not-found error when none matches (over any store whose models all
convert, which saved entities do). -/
theorem C8_search {reg : Registry} {now : Nat} {r : Repo}
    {field value : String}
    (hok : ∀ p ∈ r, ∃ x, model_to_entity reg now p.2 = .ok x) :
    ((∃ p ∈ r, modelField p.2 field = some value) →
      ∃ dn, repoSearch reg now r field value = .ok dn ∧
        nodeField dn field = some value) ∧
    ((∀ p ∈ r, modelField p.2 field ≠ some value) →
      repoSearch reg now r field value = .error .modelNotFound) := by
  constructor
  · rintro ⟨p, hp, hpv⟩
    have hfind : (r.find? (fun q => modelField q.2 field == some value)).isSome := by
      rw [List.find?_isSome]
      exact ⟨p, hp, by simp [hpv]⟩
    obtain ⟨q, hq⟩ := Option.isSome_iff_exists.mp hfind
    have hqmem : q ∈ r := List.mem_of_find?_eq_some hq
    have hqv : modelField q.2 field = some value := by
      have := List.find?_some hq
      simpa using this
    obtain ⟨⟨dn, w⟩, hdn⟩ := hok q hqmem
    refine ⟨dn, ?_, ?_⟩
    · simp [repoSearch, hq, hdn, Except.map]
    · rw [nodeField_eq_modelField hdn field, hqv]
  · intro hnone
    have hfind : r.find? (fun q => modelField q.2 field == some value) = none := by
      rw [List.find?_eq_none]
      intro p hp
      simp [hnone p hp]
    simp [repoSearch, hfind]

/-- Witness for C8 on the ten-entity store: a present name is found with
that name; an absent one raises the not-found error. -/
theorem C8_search_witness :
    (∃ dn, repoSearch emptyRegistry 1 c7Repo "name" "data_node-2" = .ok dn ∧
      nodeField dn "name" = some "data_node-2") ∧
    repoSearch emptyRegistry 1 c7Repo "name" "no_such_name" =
      .error .modelNotFound := by
  have hok := repoLoadAll_mem_ok c7_load_eq
  exact ⟨(C8_search hok).1 (by decide), (C8_search hok).2 (by decide)⟩

theorem repoFind_upsert (r : Repo) (id : String) (m : DataNodeModel) :
    repoFind (repoUpsert r id m) id = some m := by
  unfold repoUpsert
  split
  · rename_i hany
    induction r with
    | nil => simp at hany
    | cons q rest ih =>
      by_cases hq : (q.1 == id) = true
      · simp only [repoFind, List.map_cons]
        rw [if_pos hq, List.find?_cons_of_pos _ (by simp)]
        simp
      · rw [Bool.not_eq_true] at hq
        rw [List.any_cons] at hany
        simp only [hq, Bool.false_or] at hany
        have hrest := ih hany
        simp only [repoFind, List.map_cons, List.find?_cons, hq] at hrest ⊢
        simpa [hq] using hrest
  · rename_i hany
    rw [Bool.not_eq_true] at hany
    rw [repoFind, List.find?_append]
    have hnone : r.find? (fun p => p.1 == id) = none := by
      rw [List.find?_eq_none]
      exact List.any_eq_false.mp hany
    simp [hnone]

/-- C9: exporting a just-saved entity writes that entity's canonical
serialized Model — the very record `_entity_to_model` produces — to the
path `<destination>/data_node/<id>.json`, and any store (either backend)
holding the same persisted Model under that id exports identically. -/
theorem C9_export {now : Nat} {r0 r : Repo} {dn : DataNode} {dest : String}
    (hsave : repoSave now r0 dn = .ok r) :
    ∃ m w, entity_to_model now dn = .ok (m, w) ∧
      repoExport r dn.id dest =
        .ok (dest ++ "/data_node/" ++ dn.id ++ ".json", m) ∧
      ∀ r', repoFind r' dn.id = some m →
        repoExport r' dn.id dest = repoExport r dn.id dest := by
  simp only [repoSave, bind, Except.bind] at hsave
  split at hsave
  · cases hsave
  · rename_i x hx
    cases hsave
    obtain ⟨m, w⟩ := x
    have hfind : repoFind (repoUpsert r0 dn.id m) dn.id = some m :=
      repoFind_upsert r0 dn.id m
    refine ⟨m, w, hx, by simp [repoExport, hfind], fun r' hr' => by
      simp [repoExport, hfind, hr']⟩

/-- Witness for C9 at a freshly saved pickle entity and two stores. -/
theorem C9_export_witness :
    ∃ m w, entity_to_model 0 (c7Entity "data_node-0") = .ok (m, w) ∧
      repoExport [("data_node-0", c7Model "data_node-0")]
          (c7Entity "data_node-0").id "/tmp/out" =
        .ok ("/tmp/out" ++ "/data_node/" ++ (c7Entity "data_node-0").id ++
          ".json", m) ∧
      ∀ r', repoFind r' (c7Entity "data_node-0").id = some m →
        repoExport r' (c7Entity "data_node-0").id "/tmp/out" =
          repoExport [("data_node-0", c7Model "data_node-0")]
            (c7Entity "data_node-0").id "/tmp/out" := by
  have hsave : repoSave 0 [] (c7Entity "data_node-0") =
      .ok [("data_node-0", c7Model "data_node-0")] := by
    simp [c7Entity, c7Model, repoSave, repoUpsert, entity_to_model,
      serialize_data_node_properties, serialize_edits, bind, Except.bind,
      Finmap.hasKey, Finset.sort_empty]
  exact C9_export hsave
